import Mathlib

/-!
Verification of the Chapel runtime argument layer (src/runtime/src/arg.c)
and of the structured-parallel runtime described by the specification
(Structured Task Group, Error Aggregator, Synchronization Cell).

The functions of arg.c are embedded shallowly: the file-level C globals
become the structure `ArgGlobals`, command-line strings become `String` /
`List Char`, and a call to `chpl_error` (which prints and terminates the
process) becomes an `Except.error` carrying the globals as they stand at
the moment of termination.
-/

namespace Chapel

/-- The file-level globals of arg.c: `gdbFlag` (line 21), `blockreport`
(line 22), `taskreport` (line 23), `_argNumLocales` (line 104), and the
extern global `verbosity` that parseArgs assigns.  All are C int/int32
values; every assignment in arg.c stores 0, 1, 2, a small loop index or a
parsed int32, so plain `Int` is an exact model. -/
structure ArgGlobals where
  gdbFlag : Int
  blockreport : Int
  taskreport : Int
  argNumLocales : Int
  verbosity : Int
deriving Repr, DecidableEq

/-- The static initializers of arg.c: gdbFlag = 0, blockreport = 0,
taskreport = 0, _argNumLocales = 0.  `verbosity` is defined in another
translation unit, so its initial value is a parameter. -/
def initGlobals (v0 : Int) : ArgGlobals :=
  { gdbFlag := 0, blockreport := 0, taskreport := 0
    argNumLocales := 0, verbosity := v0 }

/-- Digit-string parser used by the int32 conversion model. -/
def parseDigits (l : List Char) : Option Nat :=
  if l = [] then none
  else if l.all Char.isDigit then
    some (l.foldl (fun a c => a * 10 + (c.toNat - 48)) 0)
  else none

/-- Modelled from the spec: `c_string_to_int32_t_precise` (declared in
chplcast.h; chplcast.c is not in the corpus).  It converts the whole
string to a signed 32-bit integer and sets the `invalid` out-flag when
the string is not a syntactically valid int32 (empty, stray characters,
or out of the int32 range); on an invalid string the stored value is 0.
Returns (value, invalid). -/
def c_string_to_int32_t_precise (s : List Char) : Int × Bool :=
  match s with
  | '-' :: rest =>
    match parseDigits rest with
    | some n => if (n : Int) ≤ 2 ^ 31 then (-(n : Int), false) else (0, true)
    | none => (0, true)
  | _ =>
    match parseDigits s with
    | some n => if (n : Int) < 2 ^ 31 then ((n : Int), false) else (0, true)
    | none => (0, true)

/-- parseNumLocales (arg.c lines 106-118).  The parsed value is stored
into `_argNumLocales` first (line 109); only then is the `invalid` flag
checked and, after that, the `< 1` range check made.  `chpl_error` is
fatal, so an error result carries the globals as the process dies. -/
def parseNumLocales (numPtr : List Char) (g : ArgGlobals) :
    Except ArgGlobals ArgGlobals :=
  let p := c_string_to_int32_t_precise numPtr
  let g1 := { g with argNumLocales := p.1 }
  if p.2 then .error g1
  else if p.1 < 1 then .error g1
  else .ok g1

/-- getArgNumLocales (arg.c lines 120-126): returns `_argNumLocales`
when it is non-zero and the initial 0 otherwise. -/
def getArgNumLocales (g : ArgGlobals) : Int :=
  if g.argNumLocales ≠ 0 then g.argNumLocales else 0

/-- _runInGDB (arg.c lines 25-27): a pure read of `gdbFlag`. -/
def runInGDB (g : ArgGlobals) : Int :=
  g.gdbFlag

/-! ## defineEnvVar (arg.c lines 132-152) -/

/-- Split a C string at its first '=' character: returns the name part
(before) and the value part (after), or `none` when no '=' occurs.  This
is what the `strchr(estr, '=')` / `*estr_val = '\0'` dance of
defineEnvVar computes: after the temporary NUL is written, the name is
the prefix before the first '=' and the value is the suffix after it. -/
def splitAtFirstEq : List Char → Option (List Char × List Char)
  | [] => none
  | c :: rest =>
    if c = '=' then some ([], rest)
    else (splitAtFirstEq rest).map (fun p => (c :: p.1, p.2))

/-- Environment lookup: first binding wins, as in POSIX getenv. -/
def lookupEnv : List (List Char × List Char) → List Char → Option (List Char)
  | [], _ => none
  | (n, v) :: rest, name => if n = name then some v else lookupEnv rest name

/-- Modelled from the spec: POSIX `setenv(name, value, 0)` (the C library
call made by defineEnvVar with overwrite = 0): a name that is already
bound keeps its binding, an unbound name is added. -/
def setenvNoOverwrite (env : List (List Char × List Char))
    (name value : List Char) : List (List Char × List Char) :=
  if env.any (fun p => p.1 = name) then env else env ++ [(name, value)]

/-- defineEnvVar (arg.c lines 132-152).  With no '=' in the argument it
raises a fatal error (line 143) before touching anything.  Otherwise it
temporarily NUL-terminates the name, calls setenv(name, value, 0), on a
setenv failure formats a message into the static `errmsg` buffer without
ever printing it, and restores the '=' (line 151) before returning.
`setenvFails` is an oracle for the setenv(3) result; a failed setenv
leaves the environment unchanged.  The returned triple is (the argv
string as it stands on return, the environment, the messages shown to
the user). -/
def defineEnvVar (setenvFails : Bool) (estr : List Char)
    (env : List (List Char × List Char)) :
    Except Unit (List Char × List (List Char × List Char) × List (List Char)) :=
  match splitAtFirstEq estr with
  | none => .error ()
  | some (name, value) =>
    let env' := if setenvFails then env else setenvNoOverwrite env name value
    .ok (name ++ '=' :: value, env', [])

/-! ## parseArgs (arg.c lines 155-372)

parseArgs walks argv with a C for-loop that can consume extra arguments
(`i++` for the separated operands of -E, -f and -nl, and `i += ret` for
the counts returned by the config-variable helpers).  The helpers
`handlePossibleConfigVar`, `handleNonstandardArg`, `parseConfigFile` and
`initSetValue` live in config.c, which is not part of the corpus; they
are modelled as oracles recording their calls, where an oracle result of
`none` stands for the fatal `chpl_error` those helpers can raise.  None
of them touches the report toggles, verbosity or the gdb flag.  The
effect of `handleNonstandardArg` on the program's own argv is not
modelled (no claim depends on it). -/

/-- Oracles for the externals of arg.c that live in config.c and in the
C library.  `configVarResult a` / `nonstdResult a`: number of extra argv
entries consumed by handlePossibleConfigVar / handleNonstandardArg for
argument `a`, or `none` when the helper raises a fatal error.
`configFileOk f`: whether parseConfigFile on file `f` succeeds.
`setenvFails e`: the setenv(3) result inside defineEnvVar for string
`e`. -/
structure Externals where
  configVarResult : String → Option Nat
  nonstdResult : String → Option Nat
  configFileOk : String → Bool
  setenvFails : List Char → Bool

/-- Concrete externals used for evaluating the model on closed inputs:
every helper succeeds and consumes no extra arguments. -/
def extZero : Externals :=
  { configVarResult := fun _ => some 0, nonstdResult := fun _ => some 0
    configFileOk := fun _ => true, setenvFails := fun _ => false }

/-- The state threaded through the parseArgs loop: the arg.c globals,
the two locals printHelp / printAbout of parseArgs, the argument vector
accumulated into `chpl_gen_main_arg`, the process environment, and logs
of the calls made to the external config helpers. -/
structure ParseState where
  g : ArgGlobals
  printHelp : Bool
  printAbout : Bool
  genMainArgs : List String
  env : List (List Char × List Char)
  configVarArgs : List String
  initSetValueCalls : List (String × String)
  configFiles : List String
  nonstdArgs : List String
deriving Repr, DecidableEq

def initParseState (g0 : ArgGlobals)
    (env0 : List (List Char × List Char)) : ParseState :=
  { g := g0, printHelp := false, printAbout := false, genMainArgs := []
    env := env0, configVarArgs := [], initSetValueCalls := []
    configFiles := [], nonstdArgs := [] }

/-- What one loop iteration decided to do with the current argument. -/
inductive LoopAct
  | err (s : ParseState)
  | cont (s : ParseState)
  | setStop (s : ParseState)
  | contSkip (k : Nat) (s : ParseState)
  | needEnvOperand (s : ParseState)
  | needFileOperand (s : ParseState)
  | needNumLocalesOperand (s : ParseState)

/-- The state carried by a loop action. -/
def LoopAct.state : LoopAct → ParseState
  | .err s => s
  | .cont s => s
  | .setStop s => s
  | .contSkip _ s => s
  | .needEnvOperand s => s
  | .needFileOperand s => s
  | .needNumLocalesOperand s => s

/-- handleNonstandardArg call (the default / fall-through cases of the C
switch): either a fatal error or `k` extra arguments consumed. -/
def nonstdAct (ext : Externals) (a : String) (s : ParseState) : LoopAct :=
  match ext.nonstdResult a with
  | none => .err s
  | some k => .contSkip k { s with nonstdArgs := s.nonstdArgs ++ [a] }

/-- handlePossibleConfigVar call (the `--<cfgVar>=<val>` fall-through of
the long-flag branch and the `-s` branch). -/
def configVarAct (ext : Externals) (a : String) (s : ParseState) : LoopAct :=
  match ext.configVarResult a with
  | none => .err s
  | some k => .contSkip k { s with configVarArgs := s.configVarArgs ++ [a] }

/-- The branch of the parseArgs loop body (arg.c lines 162-357) that
the current argument selects.  A carried payload is the substring the
branch body uses (`currentArg + 2` or `currentArg + 3`). -/
inductive ArgKind
  | passthrough
  | stopParse
  | badArg
  | gdbK
  | helpLongK
  | aboutK
  | verboseK
  | blockreportK
  | taskreportK
  | quietK
  | configVarK
  | aboutShortK
  | blockShortK
  | envOperandK
  | envInlineK (e : List Char)
  | fileOperandK
  | fileInlineK (f : String)
  | helpShortK
  | nlOperandK
  | nlInlineK (v : String)
  | quietShortK
  | taskShortK
  | verboseShortK
  | nonstdK
deriving Repr, DecidableEq

/-- Branch selection of the parseArgs loop body (arg.c lines 162-357).
The C switch over `currentArg[0]` and `currentArg[1]`, with its
`currentArg[2] == NUL` sub-tests, is rendered as a chain of tests on
the same characters: `a.data.take 2 = [c0, c1]` is
`currentArg[0] == c0 && currentArg[1] == c1`, and an exact string
equality such as `a = "-b"` is that plus `currentArg[2] == NUL`.  The
branches appear in the order of the C switch cases; since the switch
dispatches on distinct characters the chain order is immaterial. -/
def classifyArg (mha : Bool) (stop : Bool) (a : String) : ArgKind :=
  -- lines 169-176: with mainHasArgs, pass unparsed arguments through
  if mha ∧ (stop ∨ a.data.length < 2) then .passthrough
  -- lines 181-184: "--" stops parsing when main takes arguments
  else if mha ∧ a = "--" then .stopParse
  -- lines 186-190
  else if a.data.length < 2 then .badArg
  -- lines 195-237: long flags
  else if a.data.take 2 = ['-', '-'] then
    if String.mk (a.data.drop 2) = "gdb" then .gdbK
    else if String.mk (a.data.drop 2) = "help" then .helpLongK
    else if String.mk (a.data.drop 2) = "about" then .aboutK
    else if String.mk (a.data.drop 2) = "verbose" then .verboseK
    else if String.mk (a.data.drop 2) = "blockreport" then .blockreportK
    else if String.mk (a.data.drop 2) = "taskreport" then .taskreportK
    else if String.mk (a.data.drop 2) = "quiet" then .quietK
    else if a.data.length < 3 then .badArg
    else .configVarK
  -- lines 239-245: -a
  else if a = "-a" then .aboutShortK
  else if a.data.take 2 = ['-', 'a'] then .nonstdK
  -- lines 247-253: -b
  else if a = "-b" then .blockShortK
  else if a.data.take 2 = ['-', 'b'] then .nonstdK
  -- lines 255-267: -E
  else if a = "-E" then .envOperandK
  else if a.data.take 2 = ['-', 'E'] then .envInlineK (a.data.drop 2)
  -- lines 269-281: -f
  else if a = "-f" then .fileOperandK
  else if a.data.take 2 = ['-', 'f'] then .fileInlineK (String.mk (a.data.drop 2))
  -- lines 283-291: -h
  else if a = "-h" then .helpShortK
  else if a.data.take 2 = ['-', 'h'] then .nonstdK
  -- lines 293-311: -nl
  else if a = "-nl" then .nlOperandK
  else if a.data.take 3 = ['-', 'n', 'l'] then .nlInlineK (String.mk (a.data.drop 3))
  else if a.data.take 2 = ['-', 'n'] then .nonstdK
  -- lines 313-319: -q
  else if a = "-q" then .quietShortK
  else if a.data.take 2 = ['-', 'q'] then .nonstdK
  -- lines 321-330: -s
  else if a.data.take 2 = ['-', 's'] then
    if a.data.length < 3 then .badArg else .configVarK
  -- lines 332-338: -t
  else if a = "-t" then .taskShortK
  else if a.data.take 2 = ['-', 't'] then .nonstdK
  -- lines 340-346: -v
  else if a = "-v" then .verboseShortK
  else if a.data.take 2 = ['-', 'v'] then .nonstdK
  -- lines 348-356: everything else
  else .nonstdK

/-- The body of the selected branch (arg.c lines 162-357): its effect
on the loop state.  `idx` is the loop index `i` (stored by `--gdb` into
gdbFlag). -/
def applyKind (ext : Externals) (idx : Nat) (a : String) (s : ParseState) :
    ArgKind → LoopAct
  | .passthrough => .cont { s with genMainArgs := s.genMainArgs ++ [a] }
  | .stopParse => .setStop s
  | .badArg => .err s
  | .gdbK => .cont { s with g := { s.g with gdbFlag := (idx : Int) } }
  | .helpLongK =>
    .cont { s with printHelp := true, genMainArgs := s.genMainArgs ++ ["--help"] }
  | .aboutK => .cont { s with printAbout := true }
  | .verboseK => .cont { s with g := { s.g with verbosity := 2 } }
  | .blockreportK => .cont { s with g := { s.g with blockreport := 1 } }
  | .taskreportK => .cont { s with g := { s.g with taskreport := 1 } }
  | .quietK => .cont { s with g := { s.g with verbosity := 0 } }
  | .configVarK => configVarAct ext a s
  | .aboutShortK => .cont { s with printAbout := true }
  | .blockShortK => .cont { s with g := { s.g with blockreport := 1 } }
  | .envOperandK => .needEnvOperand s
  | .envInlineK e =>
    match defineEnvVar (ext.setenvFails e) e s.env with
    | .error _ => .err s
    | .ok out => .cont { s with env := out.2.1 }
  | .fileOperandK => .needFileOperand s
  | .fileInlineK f =>
    if ext.configFileOk f then
      .cont { s with configFiles := s.configFiles ++ [f] }
    else .err s
  | .helpShortK =>
    .cont { s with printHelp := true, genMainArgs := s.genMainArgs ++ ["-h"] }
  | .nlOperandK => .needNumLocalesOperand s
  | .nlInlineK v =>
    .cont { s with initSetValueCalls := s.initSetValueCalls ++ [("numLocales", v)] }
  | .quietShortK => .cont { s with g := { s.g with verbosity := 0 } }
  | .taskShortK => .cont { s with g := { s.g with taskreport := 1 } }
  | .verboseShortK => .cont { s with g := { s.g with verbosity := 2 } }
  | .nonstdK => nonstdAct ext a s

/-- One iteration of the parseArgs loop body: select the branch for the
current argument, then run it. -/
def dispatchArg (ext : Externals) (mha : Bool) (idx : Nat) (stop : Bool)
    (a : String) (s : ParseState) : LoopAct :=
  applyKind ext idx a s (classifyArg mha stop a)

/-- The fields of the loop state the claims track: the globals, the
printHelp local, and the program's own argument vector.  The operand
branches of the loop touch none of them. -/
def coreView (s : ParseState) : ArgGlobals × Bool × List String :=
  (s.g, s.printHelp, s.genMainArgs)

/-- Proof device: the inversion facts about branch selection needed
below — only "--blockreport"/"-b" select a blockreport branch and only
"--taskreport"/"-t" a taskreport branch. -/
def kindInv (a : String) (k : ArgKind) : Prop :=
  (k = .blockreportK → a = "--blockreport") ∧
  (k = .blockShortK → a = "-b") ∧
  (k = .taskreportK → a = "--taskreport") ∧
  (k = .taskShortK → a = "-t")

/-- The parseArgs for-loop (arg.c lines 162-358).  `skip` counts
arguments still to be skipped because a config helper consumed them; a
fatal `chpl_error` becomes `.error` carrying the state at death. -/
def parseArgsLoop (ext : Externals) (mha : Bool) :
    List String → Nat → Bool → Nat → ParseState → Except ParseState ParseState
  | [], _, _, _, s => .ok s
  | _ :: rest, idx, stop, k + 1, s => parseArgsLoop ext mha rest (idx + 1) stop k s
  | a :: rest, idx, stop, 0, s =>
    match dispatchArg ext mha idx stop a s with
    | .err s' => .error s'
    | .cont s' => parseArgsLoop ext mha rest (idx + 1) stop 0 s'
    | .setStop s' => parseArgsLoop ext mha rest (idx + 1) true 0 s'
    | .contSkip k s' => parseArgsLoop ext mha rest (idx + 1) stop k s'
    | .needEnvOperand s' =>
      -- lines 256-263: -E with a separated operand
      match rest with
      | [] => .error s'
      | next :: rest2 =>
        match defineEnvVar (ext.setenvFails next.data) next.data s'.env with
        | .error _ => .error s'
        | .ok out =>
          parseArgsLoop ext mha rest2 (idx + 2) stop 0 { s' with env := out.2.1 }
    | .needFileOperand s' =>
      -- lines 270-277: -f with a separated operand
      match rest with
      | [] => .error s'
      | next :: rest2 =>
        if ext.configFileOk next then
          parseArgsLoop ext mha rest2 (idx + 2) stop 0
            { s' with configFiles := s'.configFiles ++ [next] }
        else .error s'
    | .needNumLocalesOperand s' =>
      -- lines 296-307: -nl with a separated operand
      match rest with
      | [] => .error s'
      | next :: rest2 =>
        parseArgsLoop ext mha rest2 (idx + 2) stop 0
          { s' with initSetValueCalls := s'.initSetValueCalls ++ [("numLocales", next)] }

/-- The observable outcome of parseArgs: the final state, whether the
help and config-variable tables were printed, whether the about text
was printed, and the `chpl_exit_any` status if parseArgs exited. -/
structure ParseResult where
  state : ParseState
  printedHelpTable : Bool
  printedConfigTable : Bool
  aboutPrinted : Bool
  exitStatus : Option Nat
deriving Repr, DecidableEq

/-- parseArgs (arg.c lines 155-372): run the loop over argv[1..], then
lines 360-371: `--about` prints and exits 0; `--help` prints the help
and config-variable tables and exits 0 only when the compiled main
takes no arguments (`mainHasArgs` false). -/
def parseArgs (ext : Externals) (mha : Bool) (g0 : ArgGlobals)
    (env0 : List (List Char × List Char)) (args : List String) :
    Except ParseState ParseResult :=
  match parseArgsLoop ext mha args 1 false 0 (initParseState g0 env0) with
  | .error s => .error s
  | .ok s =>
    if s.printAbout then .ok ⟨s, false, false, true, some 0⟩
    else if s.printHelp && !mha then .ok ⟨s, true, true, false, some 0⟩
    else .ok ⟨s, false, false, false, none⟩

/-! ## The runtime core's view of the startup parameters

The CLI layer (arg.c and config.c) is, per the specification, outside
the runtime core; the core consumes its results — node count,
verbosity, the report toggles, the gdb flag — as a flat record of
scalar values. -/

/-- The flat key/value set of startup parameters the runtime core
consumes: exactly the scalar globals arg.c initializes. -/
def flatConfig (g : ArgGlobals) : Int × Int × Int × Int × Int :=
  (g.argNumLocales, g.verbosity, g.blockreport, g.taskreport, g.gdbFlag)

/-- Modelled from the spec: the post-initialization runtime interface
over the configuration globals.  `getArgNumLocales` and `_runInGDB` are
the reader entry points of arg.c (pure reads); the block-report and
task-report snapshot queries are the spec's read-only introspection
contract for the diagnostic signal handler, which is not in the
corpus. -/
inductive RuntimeOp
  | getNumLocales
  | gdbQuery
  | blockReportQuery
  | taskReportQuery

/-- The value a post-initialization runtime operation returns.  None of
the operations writes: the code behind `getNumLocales` and `gdbQuery`
(arg.c lines 25-27 and 120-126) only reads the globals, and the spec
declares the report queries a read-only introspection contract. -/
def runOp (g : ArgGlobals) : RuntimeOp → Int
  | .getNumLocales => getArgNumLocales g
  | .gdbQuery => runInGDB g
  | .blockReportQuery => g.blockreport
  | .taskReportQuery => g.taskreport

/-- Run a sequence of post-initialization operations, threading the
configuration state through each: every operation leaves the state it
was given to the next and contributes its returned value. -/
def runOps : ArgGlobals → List RuntimeOp → ArgGlobals × List Int
  | g, [] => (g, [])
  | g, op :: ops =>
    let v := runOp g op
    let r := runOps g ops
    (r.1, v :: r.2)

/-- The whole lifecycle of the configuration globals: parseArgs mutates
them once at startup, then an arbitrary sequence of runtime operations
runs.  Returns `none` when startup died in `chpl_error`. -/
def configLifecycle (ext : Externals) (mha : Bool) (g0 : ArgGlobals)
    (env0 : List (List Char × List Char)) (args : List String)
    (ops : List RuntimeOp) : Option (ArgGlobals × ArgGlobals × List Int) :=
  match parseArgs ext mha g0 env0 args with
  | .error _ => none
  | .ok r => some (r.state.g, runOps r.state.g ops)

/-! ## Structured Task Group and Error Aggregator

Modelled from the spec: the tasking runtime (Structured Task Group,
Error Aggregator, Synchronization Cell) is not part of the corpus —
only the Chapel test src/test/errhandling/parallel/begin-throws.chpl
exercises it.  The definitions below follow sections 4.2, 4.4 and the
data model of section 3 of the specification. -/

/-- Terminal outcome of one child task: `Completed`, or `Failed` with
the captured error (errors are compared by content, so `String`). -/
inductive Outcome
  | completed
  | failed (msg : String)
deriving Repr, DecidableEq

/-- Modelled from the spec: a Structured Task Group holds an
expected-child count, a completion counter, and the Error Aggregator's
ordered error list. -/
structure TaskGroup where
  expected : Nat
  completedCount : Nat
  errors : List String
deriving Repr, DecidableEq

/-- `open(expected_count)`: begins a scope with no completions and an
empty Error Aggregator. -/
def openGroup (n : Nat) : TaskGroup :=
  { expected := n, completedCount := 0, errors := [] }

/-- `on_child_terminal(task, outcome)`: invoked exactly once per child;
increments the completion counter and, on failure, appends the child's
error to the Error Aggregator (`record`). -/
def onChildTerminal (g : TaskGroup) (o : Outcome) : TaskGroup :=
  { g with
    completedCount := g.completedCount + 1
    errors :=
      match o with
      | .completed => g.errors
      | .failed m => g.errors ++ [m] }

/-- Report a list of child outcomes into the group, in arrival order. -/
def reportAll (g : TaskGroup) (arrivals : List Outcome) : TaskGroup :=
  arrivals.foldl onChildTerminal g

/-- `join()` fires once the completion counter equals the expected
count. -/
def joinReady (g : TaskGroup) : Bool :=
  g.completedCount == g.expected

/-- What `join()` does after the counter reaches the target: `normal`
return, or raising the Error Group holding the aggregator's drain. -/
inductive JoinResult
  | normal
  | raises (errs : List String)
deriving Repr, DecidableEq

/-- `join()`'s outcome: raise the Error Group when the Error Aggregator
is non-empty, return normally otherwise. -/
def joinResult (g : TaskGroup) : JoinResult :=
  if g.errors.isEmpty then .normal else .raises g.errors

/-- The errors of the failed children among a list of outcomes, in list
order. -/
def failures (cs : List Outcome) : List String :=
  cs.filterMap fun o =>
    match o with
    | .completed => none
    | .failed m => some m

/-! ### The group as a small-step system (for the join invariant) -/

/-- Scheduling state of one child task: still to terminate, or in one
of the two terminal states. -/
inductive ChildState
  | runnable
  | completed
  | failed (msg : String)
deriving Repr, DecidableEq

/-- Terminal states are Completed and Failed. -/
def terminalChild : ChildState → Bool
  | .runnable => false
  | .completed => true
  | .failed _ => true

/-- The terminal state a child enters for a given outcome. -/
def toChild : Outcome → ChildState
  | .completed => .completed
  | .failed m => .failed m

/-- A Structured Task Group together with the scheduling state of its
registered children. -/
structure GroupSys where
  children : List ChildState
  grp : TaskGroup
deriving Repr, DecidableEq

/-- A freshly opened group with `n` registered, not yet terminated
children. -/
def initSys (n : Nat) : GroupSys :=
  { children := List.replicate n .runnable, grp := openGroup n }

/-- Count of children that reached a terminal state. -/
def countTerminal (cs : List ChildState) : Nat :=
  (cs.filter terminalChild).length

/-- Modelled from the spec: one scheduler step — some still-runnable
child terminates with outcome `o` and reports into the group.  The
rule's premises mention only the terminating child, never its siblings:
a sibling's failure cannot disable another child's step. -/
inductive GStep : GroupSys → GroupSys → Prop
  | finish (s : GroupSys) (i : Nat) (o : Outcome) (hi : i < s.children.length)
      (hr : s.children.get ⟨i, hi⟩ = .runnable) :
      GStep s { children := s.children.set i (toChild o)
                grp := onChildTerminal s.grp o }

/-- States reachable from a freshly opened group of `n` children. -/
inductive ReachSys (n : Nat) : GroupSys → Prop
  | init : ReachSys n (initSys n)
  | step {s s' : GroupSys} : ReachSys n s → GStep s s' → ReachSys n s'

/-! ## Synchronization Cell

Modelled from the spec (section 3, "Synchronization Cell"): a
single-assignment slot with states Empty (value `none`) and Full.  A
read on Empty suspends the calling task; a write transitions the cell
to Full and resumes the waiters; the cell never returns to Empty.  The
execution of concurrent readers and writers is an arbitrary
interleaving, modelled as a list of events processed in order. -/

/-- A synchronization cell: its value, when Full, and the tasks
currently suspended on it. -/
structure CellState where
  value : Option Nat
  waiting : List Nat
deriving Repr, DecidableEq

/-- The Empty cell with no waiters. -/
def initCell : CellState :=
  { value := none, waiting := [] }

/-- One scheduled event: some task writes the value `v`, or task `t`
executes a read. -/
inductive CEvent
  | write (v : Nat)
  | read (t : Nat)
deriving Repr, DecidableEq

/-- Whether an event is a write. -/
def isWrite : CEvent → Bool
  | .write _ => true
  | .read _ => false

/-- Process one event: a read on Full is satisfied at once (the reader
proceeds); a read on Empty suspends the reader; a write on Empty fills
the cell and resumes every waiter; a second write on a single-assignment
cell has no effect on the stored value (Full never reverts to Empty).
Returns the new cell state and the tasks allowed to proceed by this
event. -/
def cellStep (s : CellState) : CEvent → CellState × List Nat
  | .read t =>
    match s.value with
    | some _ => (s, [t])
    | none => ({ s with waiting := s.waiting ++ [t] }, [])
  | .write v =>
    match s.value with
    | none => ({ value := some v, waiting := [] }, s.waiting)
    | some w => ({ value := some w, waiting := s.waiting }, [])

/-- The cell state just before the event at position `i` of the
trace. -/
def stateAt (tr : List CEvent) (i : Nat) : CellState :=
  (tr.take i).foldl (fun s e => (cellStep s e).1) initCell

/-- The default event used for out-of-range trace lookups. -/
def padEvent : CEvent := .write 0

/-- Task `t` suspends at position `i`: the event there is `t`'s read
and the cell is Empty when it executes. -/
def suspendsAt (tr : List CEvent) (i : Nat) (t : Nat) : Prop :=
  i < tr.length ∧ tr.getD i padEvent = .read t ∧ (stateAt tr i).value = none

/-- Task `t` is allowed to proceed by the event at position `j`. -/
def proceedsAt (tr : List CEvent) (j : Nat) (t : Nat) : Prop :=
  j < tr.length ∧ t ∈ (cellStep (stateAt tr j) (tr.getD j padEvent)).2

/-! ## Helper lemmas -/

theorem string_eq_of_take2_drop2 (a : String) (p : List Char) (f : String)
    (hp : a.data.take 2 = p) (hf : String.mk (a.data.drop 2) = f) :
    a = String.mk (p ++ f.data) := by
  obtain ⟨d⟩ := a
  have h3 : d.drop 2 = f.data := congrArg String.data hf
  have h4 : d = p ++ f.data := by rw [← hp, ← h3]; exact (List.take_append_drop 2 d).symm
  rw [h4]

theorem nonstdAct_state_core (ext : Externals) (a : String) (s : ParseState) :
    ((nonstdAct ext a s).state).g = s.g ∧
    ((nonstdAct ext a s).state).printHelp = s.printHelp ∧
    ((nonstdAct ext a s).state).genMainArgs = s.genMainArgs := by
  unfold nonstdAct
  cases ext.nonstdResult a <;> exact ⟨rfl, rfl, rfl⟩

theorem configVarAct_state_core (ext : Externals) (a : String) (s : ParseState) :
    ((configVarAct ext a s).state).g = s.g ∧
    ((configVarAct ext a s).state).printHelp = s.printHelp ∧
    ((configVarAct ext a s).state).genMainArgs = s.genMainArgs := by
  unfold configVarAct
  cases ext.configVarResult a <;> exact ⟨rfl, rfl, rfl⟩

/-- Recover the whole argument from its first two characters and the
rest: used to identify the long-flag branches. -/
theorem long_flag_eq (a f fullFlag : String)
    (hg : String.mk (['-', '-'] ++ f.data) = fullFlag)
    (hp : a.data.take 2 = ['-', '-'])
    (hf : String.mk (a.data.drop 2) = f) : a = fullFlag := by
  have h := string_eq_of_take2_drop2 a ['-', '-'] f hp hf
  rw [h, hg]

/-- Push a property through one `ite` without exploding the context:
the positive branch may use the guard. -/
theorem ite_prop_imp {α : Sort _} (P : α → Prop) (c : Prop) [Decidable c]
    {x y : α} (hx : c → P x) (hy : P y) : P (if c then x else y) := by
  by_cases h : c
  · rw [if_pos h]; exact hx h
  · rw [if_neg h]; exact hy

/-- Branch-selection inversion for the report toggles. -/
theorem classifyArg_kindInv (mha stop : Bool) (a : String) :
    kindInv a (classifyArg mha stop a) := by
  unfold classifyArg
  repeat' apply ite_prop_imp (kindInv a)
  all_goals try intro h1'
  repeat' apply ite_prop_imp (kindInv a)
  all_goals try intro h2'
  all_goals try simp [kindInv]
  all_goals
    first
    | exact ‹a = "-b"›
    | exact ‹a = "-t"›
    | exact long_flag_eq a "blockreport" "--blockreport" (by decide) ‹_› ‹_›
    | exact long_flag_eq a "taskreport" "--taskreport" (by decide) ‹_› ‹_›

/-- Only "-b" and "--blockreport" select a blockreport branch. -/
theorem classifyArg_ne_block (mha stop : Bool) (a : String)
    (h1 : a ≠ "-b") (h2 : a ≠ "--blockreport") :
    classifyArg mha stop a ≠ .blockreportK ∧
      classifyArg mha stop a ≠ .blockShortK := by
  have h := classifyArg_kindInv mha stop a
  exact ⟨fun hk => h2 (h.1 hk), fun hk => h1 (h.2.1 hk)⟩

/-- Only "-t" and "--taskreport" select a taskreport branch. -/
theorem classifyArg_ne_task (mha stop : Bool) (a : String)
    (h1 : a ≠ "-t") (h2 : a ≠ "--taskreport") :
    classifyArg mha stop a ≠ .taskreportK ∧
      classifyArg mha stop a ≠ .taskShortK := by
  have h := classifyArg_kindInv mha stop a
  exact ⟨fun hk => h2 (h.2.2.1 hk), fun hk => h1 (h.2.2.2 hk)⟩

/-- Branch bodies other than the two blockreport ones leave
`blockreport` unchanged. -/
theorem applyKind_blockreport (ext : Externals) (idx : Nat) (a : String)
    (s : ParseState) (k : ArgKind)
    (hk1 : k ≠ .blockreportK) (hk2 : k ≠ .blockShortK) :
    ((applyKind ext idx a s k).state).g.blockreport = s.g.blockreport := by
  cases k <;> simp only [applyKind] <;>
    first
    | rfl
    | exact absurd rfl hk1
    | exact absurd rfl hk2
    | exact congrArg ArgGlobals.blockreport (configVarAct_state_core ext a s).1
    | exact congrArg ArgGlobals.blockreport (nonstdAct_state_core ext a s).1
    | (rename_i e; cases defineEnvVar (ext.setenvFails e) e s.env <;> rfl)
    | (rename_i f; by_cases hc : ext.configFileOk f <;>
        simp [hc, LoopAct.state])

/-- Branch bodies other than the two taskreport ones leave `taskreport`
unchanged. -/
theorem applyKind_taskreport (ext : Externals) (idx : Nat) (a : String)
    (s : ParseState) (k : ArgKind)
    (hk1 : k ≠ .taskreportK) (hk2 : k ≠ .taskShortK) :
    ((applyKind ext idx a s k).state).g.taskreport = s.g.taskreport := by
  cases k <;> simp only [applyKind] <;>
    first
    | rfl
    | exact absurd rfl hk1
    | exact absurd rfl hk2
    | exact congrArg ArgGlobals.taskreport (configVarAct_state_core ext a s).1
    | exact congrArg ArgGlobals.taskreport (nonstdAct_state_core ext a s).1
    | (rename_i e; cases defineEnvVar (ext.setenvFails e) e s.env <;> rfl)
    | (rename_i f; by_cases hc : ext.configFileOk f <;>
        simp [hc, LoopAct.state])

/-- No branch body ever resets `blockreport`: once 1, always 1. -/
theorem applyKind_blockreport_one (ext : Externals) (idx : Nat) (a : String)
    (s : ParseState) (k : ArgKind) (h : s.g.blockreport = 1) :
    ((applyKind ext idx a s k).state).g.blockreport = 1 := by
  cases k <;> simp only [applyKind] <;>
    first
    | exact h
    | rfl
    | (rw [(configVarAct_state_core ext a s).1]; exact h)
    | (rw [(nonstdAct_state_core ext a s).1]; exact h)
    | (rename_i e; cases defineEnvVar (ext.setenvFails e) e s.env <;> exact h)
    | (rename_i f; by_cases hc : ext.configFileOk f <;>
        simp [hc, LoopAct.state, h])

/-- No branch body ever resets `taskreport`: once 1, always 1. -/
theorem applyKind_taskreport_one (ext : Externals) (idx : Nat) (a : String)
    (s : ParseState) (k : ArgKind) (h : s.g.taskreport = 1) :
    ((applyKind ext idx a s k).state).g.taskreport = 1 := by
  cases k <;> simp only [applyKind] <;>
    first
    | exact h
    | rfl
    | (rw [(configVarAct_state_core ext a s).1]; exact h)
    | (rw [(nonstdAct_state_core ext a s).1]; exact h)
    | (rename_i e; cases defineEnvVar (ext.setenvFails e) e s.env <;> exact h)
    | (rename_i f; by_cases hc : ext.configFileOk f <;>
        simp [hc, LoopAct.state, h])

/-- Whenever `printHelp` is raised, the corresponding help flag has
been appended to the program's own argument vector (and stays there:
`genMainArgs` only grows). -/
def helpP (s : ParseState) : Prop :=
  s.printHelp = true → ("-h" ∈ s.genMainArgs ∨ "--help" ∈ s.genMainArgs)

theorem applyKind_helpP (ext : Externals) (idx : Nat) (a : String)
    (s : ParseState) (k : ArgKind) (hP : helpP s) :
    helpP ((applyKind ext idx a s k).state) := by
  cases k with
  | passthrough =>
    simp only [applyKind, LoopAct.state]
    intro hp
    rcases hP hp with h | h
    · exact Or.inl (List.mem_append_left _ h)
    · exact Or.inr (List.mem_append_left _ h)
  | stopParse => exact hP
  | badArg => exact hP
  | gdbK => exact hP
  | helpLongK =>
    simp only [applyKind, LoopAct.state]
    intro _
    exact Or.inr (List.mem_append_right _ (List.mem_singleton_self _))
  | aboutK => exact hP
  | verboseK => exact hP
  | blockreportK => exact hP
  | taskreportK => exact hP
  | quietK => exact hP
  | configVarK =>
    simp only [applyKind]
    intro hp
    rcases configVarAct_state_core ext a s with ⟨hg, hph, hgm⟩
    rw [hph] at hp
    rw [hgm]
    exact hP hp
  | aboutShortK => exact hP
  | blockShortK => exact hP
  | envOperandK => exact hP
  | envInlineK e =>
    simp only [applyKind]
    cases defineEnvVar (ext.setenvFails e) e s.env <;> exact hP
  | fileOperandK => exact hP
  | fileInlineK f =>
    simp only [applyKind]
    by_cases hc : ext.configFileOk f <;>
      simp only [hc, if_true, if_false, LoopAct.state] <;> exact hP
  | helpShortK =>
    simp only [applyKind, LoopAct.state]
    intro _
    exact Or.inl (List.mem_append_right _ (List.mem_singleton_self _))
  | nlOperandK => exact hP
  | nlInlineK v => exact hP
  | quietShortK => exact hP
  | taskShortK => exact hP
  | verboseShortK => exact hP
  | nonstdK =>
    simp only [applyKind]
    intro hp
    rcases nonstdAct_state_core ext a s with ⟨hg, hph, hgm⟩
    rw [hph] at hp
    rw [hgm]
    exact hP hp

theorem getArgNumLocales_eq (g : ArgGlobals) :
    getArgNumLocales g = g.argNumLocales := by
  unfold getArgNumLocales
  by_cases h : g.argNumLocales = 0 <;> simp [h]

theorem splitAtFirstEq_append {l : List Char} {n v : List Char}
    (h : splitAtFirstEq l = some (n, v)) : n ++ '=' :: v = l := by
  induction l generalizing n v with
  | nil => simp [splitAtFirstEq] at h
  | cons c rest ih =>
    unfold splitAtFirstEq at h
    by_cases hc : c = '='
    · simp [hc] at h
      simp [hc, h.1.symm, h.2.symm]
    · simp only [if_neg hc] at h
      cases hsp : splitAtFirstEq rest with
      | none => rw [hsp] at h; simp at h
      | some p =>
        obtain ⟨p1, p2⟩ := p
        rw [hsp] at h
        simp only [Option.map_some', Option.some.injEq, Prod.mk.injEq] at h
        obtain ⟨h1, h2⟩ := h
        subst h1
        subst h2
        simp [ih hsp]

theorem splitAtFirstEq_isSome {l : List Char} (h : '=' ∈ l) :
    ∃ n v, splitAtFirstEq l = some (n, v) := by
  induction l with
  | nil => simp at h
  | cons c rest ih =>
    by_cases hc : c = '='
    · exact ⟨[], rest, by simp [splitAtFirstEq, hc]⟩
    · have hr : '=' ∈ rest := by
        rcases List.mem_cons.mp h with h1 | h1
        · exact absurd h1.symm hc
        · exact h1
      obtain ⟨n, v, hnv⟩ := ih hr
      exact ⟨c :: n, v, by simp [splitAtFirstEq, hc, hnv]⟩

theorem lookupEnv_append_left (env tail : List (List Char × List Char))
    (n v : List Char) (h : lookupEnv env n = some v) :
    lookupEnv (env ++ tail) n = some v := by
  induction env with
  | nil => simp [lookupEnv] at h
  | cons p rest ih =>
    obtain ⟨pn, pv⟩ := p
    rw [List.cons_append]
    unfold lookupEnv at h ⊢
    by_cases hp : pn = n
    · simpa [hp] using h
    · simp only [if_neg hp] at h ⊢
      exact ih h

theorem lookupEnv_setenvNoOverwrite (env : List (List Char × List Char))
    (name value n : List Char) (v : List Char)
    (h : lookupEnv env n = some v) :
    lookupEnv (setenvNoOverwrite env name value) n = some v := by
  unfold setenvNoOverwrite
  by_cases hmem : env.any (fun p => p.1 = name)
  · simp [hmem, h]
  · simp only [hmem, if_neg]
    exact lookupEnv_append_left env [(name, value)] n v h

/-! ### Unfolding equations for the parseArgs loop -/

theorem parseArgsLoop_nil (ext : Externals) (mha : Bool) (idx : Nat)
    (stop : Bool) (skip : Nat) (s : ParseState) :
    parseArgsLoop ext mha [] idx stop skip s = .ok s := by
  cases skip <;> rfl

theorem parseArgsLoop_skip (ext : Externals) (mha : Bool) (a : String)
    (rest : List String) (idx : Nat) (stop : Bool) (k : Nat) (s : ParseState) :
    parseArgsLoop ext mha (a :: rest) idx stop (k + 1) s =
      parseArgsLoop ext mha rest (idx + 1) stop k s := rfl

theorem parseArgsLoop_err (ext : Externals) (mha : Bool) (a : String)
    (rest : List String) (idx : Nat) (stop : Bool) (s s₂ : ParseState)
    (hd : dispatchArg ext mha idx stop a s = .err s₂) :
    parseArgsLoop ext mha (a :: rest) idx stop 0 s = .error s₂ := by
  rw [parseArgsLoop, hd]

theorem parseArgsLoop_cont (ext : Externals) (mha : Bool) (a : String)
    (rest : List String) (idx : Nat) (stop : Bool) (s s₂ : ParseState)
    (hd : dispatchArg ext mha idx stop a s = .cont s₂) :
    parseArgsLoop ext mha (a :: rest) idx stop 0 s =
      parseArgsLoop ext mha rest (idx + 1) stop 0 s₂ := by
  rw [parseArgsLoop, hd]

theorem parseArgsLoop_setStop (ext : Externals) (mha : Bool) (a : String)
    (rest : List String) (idx : Nat) (stop : Bool) (s s₂ : ParseState)
    (hd : dispatchArg ext mha idx stop a s = .setStop s₂) :
    parseArgsLoop ext mha (a :: rest) idx stop 0 s =
      parseArgsLoop ext mha rest (idx + 1) true 0 s₂ := by
  rw [parseArgsLoop, hd]

theorem parseArgsLoop_contSkip (ext : Externals) (mha : Bool) (a : String)
    (rest : List String) (idx : Nat) (stop : Bool) (k : Nat) (s s₂ : ParseState)
    (hd : dispatchArg ext mha idx stop a s = .contSkip k s₂) :
    parseArgsLoop ext mha (a :: rest) idx stop 0 s =
      parseArgsLoop ext mha rest (idx + 1) stop k s₂ := by
  rw [parseArgsLoop, hd]

theorem parseArgsLoop_env_nil (ext : Externals) (mha : Bool) (a : String)
    (idx : Nat) (stop : Bool) (s s₂ : ParseState)
    (hd : dispatchArg ext mha idx stop a s = .needEnvOperand s₂) :
    parseArgsLoop ext mha [a] idx stop 0 s = .error s₂ := by
  rw [parseArgsLoop, hd]

theorem parseArgsLoop_env_cons (ext : Externals) (mha : Bool) (a nx : String)
    (rest2 : List String) (idx : Nat) (stop : Bool) (s s₂ : ParseState)
    (hd : dispatchArg ext mha idx stop a s = .needEnvOperand s₂) :
    parseArgsLoop ext mha (a :: nx :: rest2) idx stop 0 s =
      match defineEnvVar (ext.setenvFails nx.data) nx.data s₂.env with
      | .error _ => .error s₂
      | .ok out =>
        parseArgsLoop ext mha rest2 (idx + 2) stop 0 { s₂ with env := out.2.1 } := by
  rw [parseArgsLoop, hd]

theorem parseArgsLoop_env_err (ext : Externals) (mha : Bool) (a nx : String)
    (rest2 : List String) (idx : Nat) (stop : Bool) (s s₂ : ParseState)
    (e : Unit)
    (hd : dispatchArg ext mha idx stop a s = .needEnvOperand s₂)
    (hE : defineEnvVar (ext.setenvFails nx.data) nx.data s₂.env = .error e) :
    parseArgsLoop ext mha (a :: nx :: rest2) idx stop 0 s = .error s₂ := by
  rw [parseArgsLoop_env_cons ext mha a nx rest2 idx stop s s₂ hd, hE]

theorem parseArgsLoop_env_ok (ext : Externals) (mha : Bool) (a nx : String)
    (rest2 : List String) (idx : Nat) (stop : Bool) (s s₂ : ParseState)
    (out : List Char × List (List Char × List Char) × List (List Char))
    (hd : dispatchArg ext mha idx stop a s = .needEnvOperand s₂)
    (hE : defineEnvVar (ext.setenvFails nx.data) nx.data s₂.env = .ok out) :
    parseArgsLoop ext mha (a :: nx :: rest2) idx stop 0 s =
      parseArgsLoop ext mha rest2 (idx + 2) stop 0 { s₂ with env := out.2.1 } := by
  rw [parseArgsLoop_env_cons ext mha a nx rest2 idx stop s s₂ hd, hE]

theorem parseArgsLoop_file_nil (ext : Externals) (mha : Bool) (a : String)
    (idx : Nat) (stop : Bool) (s s₂ : ParseState)
    (hd : dispatchArg ext mha idx stop a s = .needFileOperand s₂) :
    parseArgsLoop ext mha [a] idx stop 0 s = .error s₂ := by
  rw [parseArgsLoop, hd]

theorem parseArgsLoop_file_cons (ext : Externals) (mha : Bool) (a nx : String)
    (rest2 : List String) (idx : Nat) (stop : Bool) (s s₂ : ParseState)
    (hd : dispatchArg ext mha idx stop a s = .needFileOperand s₂) :
    parseArgsLoop ext mha (a :: nx :: rest2) idx stop 0 s =
      if ext.configFileOk nx then
        parseArgsLoop ext mha rest2 (idx + 2) stop 0
          { s₂ with configFiles := s₂.configFiles ++ [nx] }
      else .error s₂ := by
  rw [parseArgsLoop, hd]

theorem parseArgsLoop_file_ok (ext : Externals) (mha : Bool) (a nx : String)
    (rest2 : List String) (idx : Nat) (stop : Bool) (s s₂ : ParseState)
    (hd : dispatchArg ext mha idx stop a s = .needFileOperand s₂)
    (hc : ext.configFileOk nx = true) :
    parseArgsLoop ext mha (a :: nx :: rest2) idx stop 0 s =
      parseArgsLoop ext mha rest2 (idx + 2) stop 0
        { s₂ with configFiles := s₂.configFiles ++ [nx] } := by
  rw [parseArgsLoop_file_cons ext mha a nx rest2 idx stop s s₂ hd, if_pos hc]

theorem parseArgsLoop_file_err (ext : Externals) (mha : Bool) (a nx : String)
    (rest2 : List String) (idx : Nat) (stop : Bool) (s s₂ : ParseState)
    (hd : dispatchArg ext mha idx stop a s = .needFileOperand s₂)
    (hc : ext.configFileOk nx = false) :
    parseArgsLoop ext mha (a :: nx :: rest2) idx stop 0 s = .error s₂ := by
  rw [parseArgsLoop_file_cons ext mha a nx rest2 idx stop s s₂ hd]
  rw [if_neg (by simp [hc])]

theorem parseArgsLoop_nl_nil (ext : Externals) (mha : Bool) (a : String)
    (idx : Nat) (stop : Bool) (s s₂ : ParseState)
    (hd : dispatchArg ext mha idx stop a s = .needNumLocalesOperand s₂) :
    parseArgsLoop ext mha [a] idx stop 0 s = .error s₂ := by
  rw [parseArgsLoop, hd]

theorem parseArgsLoop_nl_cons (ext : Externals) (mha : Bool) (a nx : String)
    (rest2 : List String) (idx : Nat) (stop : Bool) (s s₂ : ParseState)
    (hd : dispatchArg ext mha idx stop a s = .needNumLocalesOperand s₂) :
    parseArgsLoop ext mha (a :: nx :: rest2) idx stop 0 s =
      parseArgsLoop ext mha rest2 (idx + 2) stop 0
        { s₂ with initSetValueCalls := s₂.initSetValueCalls ++ [("numLocales", nx)] } := by
  rw [parseArgsLoop, hd]

/-- Master invariant of the parseArgs loop: a property of the tracked
fields that every branch body preserves (for the arguments actually in
the vector) is preserved by the whole loop. -/
theorem parseArgsLoop_inv (Q : ArgGlobals × Bool × List String → Prop) :
    ∀ (N : Nat) (args : List String), args.length ≤ N →
    ∀ (ext : Externals) (mha : Bool) (idx : Nat) (stop : Bool) (skip : Nat)
      (s s' : ParseState),
    (∀ (idx' : Nat) (stop' : Bool) (a : String) (t : ParseState), a ∈ args →
        Q (coreView t) → Q (coreView (dispatchArg ext mha idx' stop' a t).state)) →
    parseArgsLoop ext mha args idx stop skip s = .ok s' →
    Q (coreView s) → Q (coreView s') := by
  intro N
  induction N with
  | zero =>
    intro args hlen ext mha idx stop skip s s' _ h hQ
    obtain rfl : args = [] := List.length_eq_zero.mp (Nat.le_zero.mp hlen)
    rw [parseArgsLoop_nil] at h
    cases h
    exact hQ
  | succ N ih =>
    intro args hlen ext mha idx stop skip s s' hdisp h hQ
    cases args with
    | nil =>
      rw [parseArgsLoop_nil] at h
      cases h
      exact hQ
    | cons a rest =>
      have hlen' : rest.length ≤ N := by
        simp only [List.length_cons] at hlen
        omega
      have hdisp' : ∀ (idx' : Nat) (stop' : Bool) (a' : String) (t : ParseState),
          a' ∈ rest → Q (coreView t) →
          Q (coreView (dispatchArg ext mha idx' stop' a' t).state) :=
        fun i st a' t hm => hdisp i st a' t (List.mem_cons_of_mem _ hm)
      cases skip with
      | succ k =>
        rw [parseArgsLoop_skip] at h
        exact ih rest hlen' ext mha (idx + 1) stop k s s' hdisp' h hQ
      | zero =>
        have hQd : ∀ s₂, dispatchArg ext mha idx stop a s = s₂ →
            Q (coreView s₂.state) := fun s₂ hd => by
          rw [← hd]
          exact hdisp idx stop a s (List.mem_cons_self a rest) hQ
        cases hd : dispatchArg ext mha idx stop a s with
        | err s₂ =>
          rw [parseArgsLoop_err ext mha a rest idx stop s s₂ hd] at h
          cases h
        | cont s₂ =>
          rw [parseArgsLoop_cont ext mha a rest idx stop s s₂ hd] at h
          exact ih rest hlen' ext mha (idx + 1) stop 0 s₂ s' hdisp' h (hQd _ hd)
        | setStop s₂ =>
          rw [parseArgsLoop_setStop ext mha a rest idx stop s s₂ hd] at h
          exact ih rest hlen' ext mha (idx + 1) true 0 s₂ s' hdisp' h (hQd _ hd)
        | contSkip k s₂ =>
          rw [parseArgsLoop_contSkip ext mha a rest idx stop k s s₂ hd] at h
          exact ih rest hlen' ext mha (idx + 1) stop k s₂ s' hdisp' h (hQd _ hd)
        | needEnvOperand s₂ =>
          cases rest with
          | nil =>
            rw [parseArgsLoop_env_nil ext mha a idx stop s s₂ hd] at h
            cases h
          | cons nx rest2 =>
            have hlen2 : rest2.length ≤ N := by
              simp only [List.length_cons] at hlen
              omega
            have hdisp2 : ∀ (idx' : Nat) (stop' : Bool) (a' : String)
                (t : ParseState), a' ∈ rest2 → Q (coreView t) →
                Q (coreView (dispatchArg ext mha idx' stop' a' t).state) :=
              fun i st a' t hm => hdisp' i st a' t (List.mem_cons_of_mem _ hm)
            cases hE : defineEnvVar (ext.setenvFails nx.data) nx.data s₂.env with
            | error e =>
              rw [parseArgsLoop_env_err ext mha a nx rest2 idx stop s s₂ e hd hE] at h
              cases h
            | ok out =>
              rw [parseArgsLoop_env_ok ext mha a nx rest2 idx stop s s₂ out hd hE] at h
              exact ih rest2 hlen2 ext mha (idx + 2) stop 0 _ s' hdisp2 h (hQd _ hd)
        | needFileOperand s₂ =>
          cases rest with
          | nil =>
            rw [parseArgsLoop_file_nil ext mha a idx stop s s₂ hd] at h
            cases h
          | cons nx rest2 =>
            have hlen2 : rest2.length ≤ N := by
              simp only [List.length_cons] at hlen
              omega
            have hdisp2 : ∀ (idx' : Nat) (stop' : Bool) (a' : String)
                (t : ParseState), a' ∈ rest2 → Q (coreView t) →
                Q (coreView (dispatchArg ext mha idx' stop' a' t).state) :=
              fun i st a' t hm => hdisp' i st a' t (List.mem_cons_of_mem _ hm)
            cases hc : ext.configFileOk nx with
            | false =>
              rw [parseArgsLoop_file_err ext mha a nx rest2 idx stop s s₂ hd hc] at h
              cases h
            | true =>
              rw [parseArgsLoop_file_ok ext mha a nx rest2 idx stop s s₂ hd hc] at h
              exact ih rest2 hlen2 ext mha (idx + 2) stop 0 _ s' hdisp2 h (hQd _ hd)
        | needNumLocalesOperand s₂ =>
          cases rest with
          | nil =>
            rw [parseArgsLoop_nl_nil ext mha a idx stop s s₂ hd] at h
            cases h
          | cons nx rest2 =>
            have hlen2 : rest2.length ≤ N := by
              simp only [List.length_cons] at hlen
              omega
            have hdisp2 : ∀ (idx' : Nat) (stop' : Bool) (a' : String)
                (t : ParseState), a' ∈ rest2 → Q (coreView t) →
                Q (coreView (dispatchArg ext mha idx' stop' a' t).state) :=
              fun i st a' t hm => hdisp' i st a' t (List.mem_cons_of_mem _ hm)
            rw [parseArgsLoop_nl_cons ext mha a nx rest2 idx stop s s₂ hd] at h
            exact ih rest2 hlen2 ext mha (idx + 2) stop 0 _ s' hdisp2 h (hQd _ hd)

/-! ### parseArgs-level corollaries -/

theorem dispatchArg_blockreport (ext : Externals) (mha : Bool) (idx : Nat)
    (stop : Bool) (a : String) (s : ParseState)
    (h1 : a ≠ "-b") (h2 : a ≠ "--blockreport") :
    ((dispatchArg ext mha idx stop a s).state).g.blockreport = s.g.blockreport := by
  have hc := classifyArg_ne_block mha stop a h1 h2
  unfold dispatchArg
  exact applyKind_blockreport ext idx a s (classifyArg mha stop a) hc.1 hc.2

theorem dispatchArg_taskreport (ext : Externals) (mha : Bool) (idx : Nat)
    (stop : Bool) (a : String) (s : ParseState)
    (h1 : a ≠ "-t") (h2 : a ≠ "--taskreport") :
    ((dispatchArg ext mha idx stop a s).state).g.taskreport = s.g.taskreport := by
  have hc := classifyArg_ne_task mha stop a h1 h2
  unfold dispatchArg
  exact applyKind_taskreport ext idx a s (classifyArg mha stop a) hc.1 hc.2

/-- The whole loop leaves `blockreport` unchanged when neither of its
two flags occurs in the remaining argument vector. -/
theorem parseArgsLoop_blockreport_frame (ext : Externals) (mha : Bool)
    (args : List String) (idx : Nat) (stop : Bool) (skip : Nat)
    (s s' : ParseState)
    (hb : "-b" ∉ args) (hbr : "--blockreport" ∉ args)
    (h : parseArgsLoop ext mha args idx stop skip s = .ok s') :
    s'.g.blockreport = s.g.blockreport := by
  refine parseArgsLoop_inv (fun x => x.1.blockreport = s.g.blockreport)
    args.length args le_rfl ext mha idx stop skip s s' ?_ h rfl
  intro idx' stop' a t ha hQ
  have h1 : a ≠ "-b" := fun he => hb (he ▸ ha)
  have h2 : a ≠ "--blockreport" := fun he => hbr (he ▸ ha)
  rw [show coreView (dispatchArg ext mha idx' stop' a t).state =
      ((dispatchArg ext mha idx' stop' a t).state.g,
       (dispatchArg ext mha idx' stop' a t).state.printHelp,
       (dispatchArg ext mha idx' stop' a t).state.genMainArgs) from rfl]
  show (dispatchArg ext mha idx' stop' a t).state.g.blockreport = s.g.blockreport
  rw [dispatchArg_blockreport ext mha idx' stop' a t h1 h2]
  exact hQ

/-- The whole loop leaves `taskreport` unchanged when neither of its
two flags occurs in the remaining argument vector. -/
theorem parseArgsLoop_taskreport_frame (ext : Externals) (mha : Bool)
    (args : List String) (idx : Nat) (stop : Bool) (skip : Nat)
    (s s' : ParseState)
    (hb : "-t" ∉ args) (hbr : "--taskreport" ∉ args)
    (h : parseArgsLoop ext mha args idx stop skip s = .ok s') :
    s'.g.taskreport = s.g.taskreport := by
  refine parseArgsLoop_inv (fun x => x.1.taskreport = s.g.taskreport)
    args.length args le_rfl ext mha idx stop skip s s' ?_ h rfl
  intro idx' stop' a t ha hQ
  have h1 : a ≠ "-t" := fun he => hb (he ▸ ha)
  have h2 : a ≠ "--taskreport" := fun he => hbr (he ▸ ha)
  show (dispatchArg ext mha idx' stop' a t).state.g.taskreport = s.g.taskreport
  rw [dispatchArg_taskreport ext mha idx' stop' a t h1 h2]
  exact hQ

/-- `blockreport`, once set, survives the rest of the loop. -/
theorem parseArgsLoop_blockreport_one (ext : Externals) (mha : Bool)
    (args : List String) (idx : Nat) (stop : Bool) (skip : Nat)
    (s s' : ParseState) (h1 : s.g.blockreport = 1)
    (h : parseArgsLoop ext mha args idx stop skip s = .ok s') :
    s'.g.blockreport = 1 := by
  refine parseArgsLoop_inv (fun x => x.1.blockreport = 1)
    args.length args le_rfl ext mha idx stop skip s s' ?_ h h1
  intro idx' stop' a t _ hQ
  show (dispatchArg ext mha idx' stop' a t).state.g.blockreport = 1
  unfold dispatchArg
  exact applyKind_blockreport_one ext idx' a t (classifyArg mha stop' a) hQ

/-- `taskreport`, once set, survives the rest of the loop. -/
theorem parseArgsLoop_taskreport_one (ext : Externals) (mha : Bool)
    (args : List String) (idx : Nat) (stop : Bool) (skip : Nat)
    (s s' : ParseState) (h1 : s.g.taskreport = 1)
    (h : parseArgsLoop ext mha args idx stop skip s = .ok s') :
    s'.g.taskreport = 1 := by
  refine parseArgsLoop_inv (fun x => x.1.taskreport = 1)
    args.length args le_rfl ext mha idx stop skip s s' ?_ h h1
  intro idx' stop' a t _ hQ
  show (dispatchArg ext mha idx' stop' a t).state.g.taskreport = 1
  unfold dispatchArg
  exact applyKind_taskreport_one ext idx' a t (classifyArg mha stop' a) hQ

/-- The loop preserves the help-flag bookkeeping property. -/
theorem parseArgsLoop_helpP (ext : Externals) (mha : Bool)
    (args : List String) (idx : Nat) (stop : Bool) (skip : Nat)
    (s s' : ParseState) (h1 : helpP s)
    (h : parseArgsLoop ext mha args idx stop skip s = .ok s') :
    helpP s' := by
  refine parseArgsLoop_inv (fun x => x.2.1 = true → ("-h" ∈ x.2.2 ∨ "--help" ∈ x.2.2))
    args.length args le_rfl ext mha idx stop skip s s' ?_ h h1
  intro idx' stop' a t _ hQ
  show helpP (dispatchArg ext mha idx' stop' a t).state
  unfold dispatchArg
  exact applyKind_helpP ext idx' a t (classifyArg mha stop' a) hQ

/-- Branch selection for "-b" wherever the loop parses it as a flag. -/
theorem classifyArg_b (mha stop : Bool) (hms : ¬(mha = true ∧ stop = true)) :
    classifyArg mha stop "-b" = .blockShortK := by
  cases mha <;> cases stop <;> first | decide | exact absurd ⟨rfl, rfl⟩ hms

theorem classifyArg_blockreport_long (mha stop : Bool)
    (hms : ¬(mha = true ∧ stop = true)) :
    classifyArg mha stop "--blockreport" = .blockreportK := by
  cases mha <;> cases stop <;> first | decide | exact absurd ⟨rfl, rfl⟩ hms

theorem classifyArg_t (mha stop : Bool) (hms : ¬(mha = true ∧ stop = true)) :
    classifyArg mha stop "-t" = .taskShortK := by
  cases mha <;> cases stop <;> first | decide | exact absurd ⟨rfl, rfl⟩ hms

theorem classifyArg_taskreport_long (mha stop : Bool)
    (hms : ¬(mha = true ∧ stop = true)) :
    classifyArg mha stop "--taskreport" = .taskreportK := by
  cases mha <;> cases stop <;> first | decide | exact absurd ⟨rfl, rfl⟩ hms

/-- Whenever the loop reaches a "-b" or "--blockreport" that it parses
as a flag (skip count 0, and parsing not stopped by "--"), the final
blockreport value is 1. -/
theorem parseArgsLoop_b_sets (ext : Externals) (mha : Bool) (a : String)
    (rest : List String) (idx : Nat) (stop : Bool) (s s' : ParseState)
    (ha : a = "-b" ∨ a = "--blockreport")
    (hms : ¬(mha = true ∧ stop = true))
    (h : parseArgsLoop ext mha (a :: rest) idx stop 0 s = .ok s') :
    s'.g.blockreport = 1 := by
  have hd : dispatchArg ext mha idx stop a s =
      .cont { s with g := { s.g with blockreport := 1 } } := by
    unfold dispatchArg
    rcases ha with rfl | rfl
    · rw [classifyArg_b mha stop hms]; rfl
    · rw [classifyArg_blockreport_long mha stop hms]; rfl
  rw [parseArgsLoop_cont ext mha a rest idx stop s _ hd] at h
  exact parseArgsLoop_blockreport_one ext mha rest (idx + 1) stop 0 _ s' rfl h

/-- Whenever the loop reaches a "-t" or "--taskreport" that it parses
as a flag, the final taskreport value is 1. -/
theorem parseArgsLoop_t_sets (ext : Externals) (mha : Bool) (a : String)
    (rest : List String) (idx : Nat) (stop : Bool) (s s' : ParseState)
    (ha : a = "-t" ∨ a = "--taskreport")
    (hms : ¬(mha = true ∧ stop = true))
    (h : parseArgsLoop ext mha (a :: rest) idx stop 0 s = .ok s') :
    s'.g.taskreport = 1 := by
  have hd : dispatchArg ext mha idx stop a s =
      .cont { s with g := { s.g with taskreport := 1 } } := by
    unfold dispatchArg
    rcases ha with rfl | rfl
    · rw [classifyArg_t mha stop hms]; rfl
    · rw [classifyArg_taskreport_long mha stop hms]; rfl
  rw [parseArgsLoop_cont ext mha a rest idx stop s _ hd] at h
  exact parseArgsLoop_taskreport_one ext mha rest (idx + 1) stop 0 _ s' rfl h

/-- What a successful parseArgs run consists of: a successful loop run,
followed by the about/help finalization of arg.c lines 360-371. -/
theorem parseArgs_ok_elim (ext : Externals) (mha : Bool) (g0 : ArgGlobals)
    (env0 : List (List Char × List Char)) (args : List String)
    (r : ParseResult) (h : parseArgs ext mha g0 env0 args = .ok r) :
    ∃ s, parseArgsLoop ext mha args 1 false 0 (initParseState g0 env0) = .ok s ∧
      r.state = s ∧
      ((s.printAbout = true ∧ r = ⟨s, false, false, true, some 0⟩) ∨
       (s.printAbout = false ∧ (s.printHelp && !mha) = true ∧
          r = ⟨s, true, true, false, some 0⟩) ∨
       (s.printAbout = false ∧ (s.printHelp && !mha) = false ∧
          r = ⟨s, false, false, false, none⟩)) := by
  unfold parseArgs at h
  split at h
  · cases h
  · rename_i s hl
    refine ⟨s, hl, ?_, ?_⟩
    · split at h
      · cases h; rfl
      · split at h
        · cases h; rfl
        · cases h; rfl
    · by_cases hA : s.printAbout = true
      · rw [if_pos hA] at h
        cases h
        exact Or.inl ⟨hA, rfl⟩
      · rw [if_neg hA] at h
        have hA' : s.printAbout = false := by
          cases hPA : s.printAbout
          · rfl
          · exact absurd hPA hA
        by_cases hH : (s.printHelp && !mha) = true
        · rw [if_pos hH] at h
          cases h
          exact Or.inr (Or.inl ⟨hA', hH, rfl⟩)
        · rw [if_neg hH] at h
          cases h
          refine Or.inr (Or.inr ⟨hA', ?_, rfl⟩)
          cases hB : (s.printHelp && !mha)
          · rfl
          · exact absurd hB hH

/-! ## Claim C6 -/

/-- C6 counterexample: the claim quantifies over every argument vector,
but with mainHasArgs an occurrence of "-b" after "--" is passed through
to the program untouched (arg.c lines 169-184): parseArgs returns with
blockreport still 0 although "-b" is present. -/
theorem C6_counterexample :
    "-b" ∈ ["--", "-b"] ∧
    parseArgs extZero true (initGlobals 0) [] ["--", "-b"] =
      .ok ⟨{ initParseState (initGlobals 0) [] with genMainArgs := ["-b"] },
           false, false, false, none⟩ ∧
    ({ initParseState (initGlobals 0) [] with
        genMainArgs := ["-b"] } : ParseState).g.blockreport = 0 := by
  refine ⟨by decide, by rfl, by rfl⟩

/-- C6 (amended): the blockreport and taskreport toggles are 0 by
default (arg.c lines 22-23).  If neither "-b" nor "--blockreport"
occurs in the argument vector, parseArgs leaves blockreport unchanged —
no other flag affects it — and symmetrically for taskreport with
"-t"/"--taskreport".  An occurrence of one of these flags that the loop
parses as a flag (not skipped as a consumed operand, with parsing not
stopped by a preceding "--" under mainHasArgs) sets its toggle to 1,
and nothing ever resets a toggle. -/
theorem C6_report_toggles :
    (∀ v0 : Int,
      (initGlobals v0).blockreport = 0 ∧ (initGlobals v0).taskreport = 0) ∧
    (∀ (ext : Externals) (mha : Bool) (g0 : ArgGlobals)
        (env0 : List (List Char × List Char)) (args : List String)
        (r : ParseResult),
      parseArgs ext mha g0 env0 args = .ok r →
      ("-b" ∉ args → "--blockreport" ∉ args →
        r.state.g.blockreport = g0.blockreport) ∧
      ("-t" ∉ args → "--taskreport" ∉ args →
        r.state.g.taskreport = g0.taskreport)) ∧
    (∀ (ext : Externals) (mha : Bool) (a : String) (rest : List String)
        (idx : Nat) (stop : Bool) (s s' : ParseState),
      ¬(mha = true ∧ stop = true) →
      parseArgsLoop ext mha (a :: rest) idx stop 0 s = .ok s' →
      ((a = "-b" ∨ a = "--blockreport") → s'.g.blockreport = 1) ∧
      ((a = "-t" ∨ a = "--taskreport") → s'.g.taskreport = 1)) := by
  refine ⟨fun v0 => ⟨rfl, rfl⟩, ?_, ?_⟩
  · intro ext mha g0 env0 args r h
    obtain ⟨s, hl, hrs, _⟩ := parseArgs_ok_elim ext mha g0 env0 args r h
    constructor
    · intro hb hbr
      rw [hrs]
      exact parseArgsLoop_blockreport_frame ext mha args 1 false 0 _ s hb hbr hl
    · intro ht htr
      rw [hrs]
      exact parseArgsLoop_taskreport_frame ext mha args 1 false 0 _ s ht htr hl
  · intro ext mha a rest idx stop s s' hms h
    exact ⟨fun ha => parseArgsLoop_b_sets ext mha a rest idx stop s s' ha hms h,
           fun ha => parseArgsLoop_t_sets ext mha a rest idx stop s s' ha hms h⟩

/-- C6 witness: the amended theorem evaluated on concrete inputs — the
defaults, an empty run, and a loop run on just "-b". -/
theorem C6_witness :
    ((initGlobals 0).blockreport = 0 ∧ (initGlobals 0).taskreport = 0) ∧
    (⟨initParseState (initGlobals 0) [], false, false, false, none⟩
        : ParseResult).state.g.blockreport = (initGlobals 0).blockreport ∧
    ({ initParseState (initGlobals 0) [] with
        g := { initGlobals 0 with blockreport := 1 } } : ParseState).g.blockreport = 1 := by
  refine ⟨C6_report_toggles.1 0, ?_, ?_⟩
  · exact (C6_report_toggles.2.1 extZero true (initGlobals 0) [] []
      ⟨initParseState (initGlobals 0) [], false, false, false, none⟩ (by rfl)).1
      (by decide) (by decide)
  · exact (C6_report_toggles.2.2 extZero false "-b" [] 1 false
      (initParseState (initGlobals 0) [])
      { initParseState (initGlobals 0) [] with
          g := { initGlobals 0 with blockreport := 1 } }
      (by decide) (by rfl)).1 (Or.inl rfl)

/-! ## Claim C10 -/

/-- C10: with mainHasArgs, parseArgs never prints the help or
config-variable tables and any exit is the --about path, never help;
when "-h"/"--help" raised printHelp, the flag has also been appended to
the program's own argument vector.  Only with mainHasArgs false does a
help request print both tables and exit with status 0 (--about, checked
first, exits before the help tables). -/
theorem C10_help_behavior :
    (∀ (ext : Externals) (g0 : ArgGlobals) (env0 : List (List Char × List Char))
        (args : List String) (r : ParseResult),
      parseArgs ext true g0 env0 args = .ok r →
      r.printedHelpTable = false ∧ r.printedConfigTable = false ∧
      (r.exitStatus ≠ none → r.state.printAbout = true) ∧
      (r.state.printHelp = true →
        "-h" ∈ r.state.genMainArgs ∨ "--help" ∈ r.state.genMainArgs)) ∧
    (∀ (ext : Externals) (g0 : ArgGlobals) (env0 : List (List Char × List Char))
        (args : List String) (r : ParseResult),
      parseArgs ext false g0 env0 args = .ok r →
      r.state.printHelp = true → r.state.printAbout = false →
      r.printedHelpTable = true ∧ r.printedConfigTable = true ∧
        r.exitStatus = some 0) := by
  constructor
  · intro ext g0 env0 args r h
    obtain ⟨s, hl, hrs, hcases⟩ := parseArgs_ok_elim ext true g0 env0 args r h
    have hinit : helpP (initParseState g0 env0) := by
      intro hp
      simp [initParseState] at hp
    have hhelp : helpP s :=
      parseArgsLoop_helpP ext true args 1 false 0 _ s hinit hl
    have hhelp' : r.state.printHelp = true →
        "-h" ∈ r.state.genMainArgs ∨ "--help" ∈ r.state.genMainArgs := by
      rw [hrs]; exact hhelp
    rcases hcases with ⟨hA, rfl⟩ | ⟨_, hH, _⟩ | ⟨_, _, rfl⟩
    · exact ⟨rfl, rfl, fun _ => hA, hhelp'⟩
    · simp at hH
    · exact ⟨rfl, rfl, fun hne => absurd rfl hne, hhelp'⟩
  · intro ext g0 env0 args r h hH hA
    obtain ⟨s, hl, hrs, hcases⟩ := parseArgs_ok_elim ext false g0 env0 args r h
    rw [hrs] at hH hA
    rcases hcases with ⟨hA', _⟩ | ⟨_, _, rfl⟩ | ⟨_, hH', _⟩
    · rw [hA'] at hA; cases hA
    · exact ⟨rfl, rfl, rfl⟩
    · rw [hH] at hH'
      simp at hH'

/-- C10 witness: both halves evaluated at argv = ["-h"]. -/
theorem C10_witness :
    ((⟨{ initParseState (initGlobals 0) [] with
          printHelp := true, genMainArgs := ["-h"] },
        false, false, false, none⟩ : ParseResult).printedHelpTable = false ∧
      ("-h" ∈ ({ initParseState (initGlobals 0) [] with
          printHelp := true, genMainArgs := ["-h"] } : ParseState).genMainArgs ∨
        "--help" ∈ ({ initParseState (initGlobals 0) [] with
          printHelp := true, genMainArgs := ["-h"] } : ParseState).genMainArgs)) ∧
    ((⟨{ initParseState (initGlobals 0) [] with
          printHelp := true, genMainArgs := ["-h"] },
        true, true, false, some 0⟩ : ParseResult).printedHelpTable = true ∧
      (⟨{ initParseState (initGlobals 0) [] with
          printHelp := true, genMainArgs := ["-h"] },
        true, true, false, some 0⟩ : ParseResult).exitStatus = some 0) := by
  constructor
  · have h := C10_help_behavior.1 extZero (initGlobals 0) [] ["-h"]
      ⟨{ initParseState (initGlobals 0) [] with
          printHelp := true, genMainArgs := ["-h"] },
        false, false, false, none⟩ (by rfl)
    exact ⟨h.1, h.2.2.2 rfl⟩
  · have h := C10_help_behavior.2 extZero (initGlobals 0) [] ["-h"]
      ⟨{ initParseState (initGlobals 0) [] with
          printHelp := true, genMainArgs := ["-h"] },
        true, true, false, some 0⟩ (by rfl) rfl rfl
    exact ⟨h.1, h.2.2⟩

/-! ## Claim C5 -/

/-- C5: the runtime core consumes the startup parameters only as the
flat key/value record `flatConfig`: the reader entry points of arg.c
are plain projections of that record, and every post-initialization
read depends on nothing but the record — in particular on no
command-line or config-file text, which only the excluded CLI layer
(parseArgs and the config.c helpers) ever parses. -/
theorem C5_flat_startup_params :
    (∀ g : ArgGlobals,
      getArgNumLocales g = g.argNumLocales ∧ runInGDB g = g.gdbFlag) ∧
    (∀ g g' : ArgGlobals, flatConfig g = flatConfig g' →
      ∀ op : RuntimeOp, runOp g op = runOp g' op) := by
  constructor
  · exact fun g => ⟨getArgNumLocales_eq g, rfl⟩
  · intro g g' hfc op
    obtain ⟨a1, a2, a3, a4, a5⟩ := g
    obtain ⟨b1, b2, b3, b4, b5⟩ := g'
    simp only [flatConfig, Prod.mk.injEq] at hfc
    obtain ⟨h1, h2, h3, h4, h5⟩ := hfc
    subst h1
    subst h2
    subst h3
    subst h4
    subst h5
    rfl

/-- C5 witness: the flat-dependence fact evaluated at a concrete
configuration and operation. -/
theorem C5_witness :
    getArgNumLocales (initGlobals 7) = (initGlobals 7).argNumLocales ∧
    runOp (initGlobals 7) .getNumLocales = runOp (initGlobals 7) .getNumLocales :=
  ⟨(C5_flat_startup_params.1 (initGlobals 7)).1,
    C5_flat_startup_params.2 (initGlobals 7) (initGlobals 7) rfl .getNumLocales⟩

/-! ## Claim C7 -/

/-- C7: the configuration globals are mutated only during startup
initialization.  Every post-initialization runtime operation is a pure
read: running any sequence of them returns the configuration exactly as
parseArgs left it. -/
theorem C7_config_read_only :
    (∀ (g : ArgGlobals) (ops : List RuntimeOp), (runOps g ops).1 = g) ∧
    (∀ (ext : Externals) (mha : Bool) (g0 : ArgGlobals)
        (env0 : List (List Char × List Char)) (args : List String)
        (ops : List RuntimeOp) (res : ArgGlobals × ArgGlobals × List Int),
      configLifecycle ext mha g0 env0 args ops = some res →
      res.2.1 = res.1) := by
  have hfst : ∀ (g : ArgGlobals) (ops : List RuntimeOp), (runOps g ops).1 = g := by
    intro g ops
    induction ops with
    | nil => rfl
    | cons op ops ih => simp only [runOps]; exact ih
  refine ⟨hfst, ?_⟩
  intro ext mha g0 env0 args ops res h
  unfold configLifecycle at h
  split at h
  · cases h
  · rename_i r _
    cases h
    exact hfst r.state.g ops

/-- C7 witness: a concrete lifecycle — empty command line, then two
reads — leaves the configuration untouched. -/
theorem C7_witness :
    (runOps (initGlobals 0) [.getNumLocales, .blockReportQuery]).1 = initGlobals 0 ∧
    ((initGlobals 0, initGlobals 0, ([0, 0] : List Int)) :
        ArgGlobals × ArgGlobals × List Int).2.1 =
      ((initGlobals 0, initGlobals 0, ([0, 0] : List Int)) :
        ArgGlobals × ArgGlobals × List Int).1 :=
  ⟨C7_config_read_only.1 (initGlobals 0) [.getNumLocales, .blockReportQuery],
    C7_config_read_only.2 extZero true (initGlobals 0) [] []
      [.getNumLocales, .blockReportQuery]
      (initGlobals 0, initGlobals 0, ([0, 0] : List Int)) (by rfl)⟩

/-! ## Claim C8 -/

/-- C8 counterexample: parseNumLocales("-5") reports the fatal error,
but the locale-count global has already been set to the rejected value
-5 when the error is raised (the store at arg.c line 109 precedes both
checks), contradicting "the stored locale count is not set to that
value". -/
theorem C8_counterexample :
    parseNumLocales ['-', '5'] (initGlobals 0) =
      .error { initGlobals 0 with argNumLocales := -5 } ∧
    ({ initGlobals 0 with argNumLocales := -5 } : ArgGlobals).argNumLocales = -5 ∧
    (initGlobals 0).argNumLocales = 0 := by
  refine ⟨by rfl, by rfl, by rfl⟩

/-- C8 (amended): before any successful parseNumLocales call,
getArgNumLocales returns 0.  A syntactically valid value of at least 1
is stored and returned by every subsequent getArgNumLocales call.  An
invalid string or a value below 1 makes parseNumLocales raise a fatal
error — but the parsed value has already been stored into the
locale-count global when the error is raised; the process then dies, so
no getArgNumLocales call observes it. -/
theorem C8_parseNumLocales :
    (∀ v0 : Int, getArgNumLocales (initGlobals v0) = 0) ∧
    (∀ (sArg : List Char) (g : ArgGlobals) (v : Int),
      c_string_to_int32_t_precise sArg = (v, false) → 1 ≤ v →
      parseNumLocales sArg g = .ok { g with argNumLocales := v } ∧
      getArgNumLocales { g with argNumLocales := v } = v) ∧
    (∀ (sArg : List Char) (g : ArgGlobals) (v : Int) (inv : Bool),
      c_string_to_int32_t_precise sArg = (v, inv) →
      (inv = true ∨ v < 1) →
      parseNumLocales sArg g = .error { g with argNumLocales := v }) := by
  refine ⟨fun v0 => rfl, ?_, ?_⟩
  · intro sArg g v hparse hge
    constructor
    · unfold parseNumLocales
      rw [hparse]
      simp only [Bool.false_eq_true, if_false]
      rw [if_neg (by omega)]
    · rw [getArgNumLocales_eq]
  · intro sArg g v inv hparse hbad
    unfold parseNumLocales
    rw [hparse]
    rcases hbad with rfl | hlt
    · rfl
    · cases inv with
      | true => rfl
      | false =>
        simp only [Bool.false_eq_true, if_false]
        rw [if_pos hlt]

/-- C8 witness: the amended theorem evaluated on the valid input "42"
and the rejected input "0". -/
theorem C8_witness :
    getArgNumLocales (initGlobals 0) = 0 ∧
    (parseNumLocales ['4', '2'] (initGlobals 0) =
        .ok { initGlobals 0 with argNumLocales := 42 } ∧
      getArgNumLocales { initGlobals 0 with argNumLocales := 42 } = 42) ∧
    parseNumLocales ['0'] (initGlobals 0) =
      .error { initGlobals 0 with argNumLocales := 0 } :=
  ⟨C8_parseNumLocales.1 0,
    C8_parseNumLocales.2.1 ['4', '2'] (initGlobals 0) 42 (by rfl) (by omega),
    C8_parseNumLocales.2.2 ['0'] (initGlobals 0) 0 false (by rfl)
      (Or.inr (by omega))⟩

/-! ## Claim C9 -/

/-- C9: defineEnvVar on a name=value argument calls setenv with
overwrite 0, so a name already present in the environment keeps its
value; the argv string is restored to its original contents (the '='
reinserted) before return; and a setenv failure produces no message to
the user (the formatted errmsg is never printed) and leaves the
environment unchanged. -/
theorem C9_defineEnvVar (setenvFails : Bool) (estr name value : List Char)
    (env : List (List Char × List Char))
    (hsp : splitAtFirstEq estr = some (name, value)) :
    defineEnvVar setenvFails estr env =
      .ok (estr,
           (if setenvFails then env else setenvNoOverwrite env name value),
           []) ∧
    (∀ n v, lookupEnv env n = some v →
      lookupEnv (if setenvFails then env else setenvNoOverwrite env name value) n
        = some v) := by
  constructor
  · unfold defineEnvVar
    rw [hsp]
    show Except.ok (name ++ '=' :: value,
      (if setenvFails then env else setenvNoOverwrite env name value), []) = _
    rw [splitAtFirstEq_append hsp]
  · intro n v hl
    by_cases hf : setenvFails
    · rw [if_pos hf]
      exact hl
    · rw [if_neg hf]
      exact lookupEnv_setenvNoOverwrite env name value n v hl

/-- C9 witness: a concrete -E argument "A=B" against an environment
that already binds A to C — the binding survives, the string is intact,
no message is produced. -/
theorem C9_witness :
    defineEnvVar false ['A', '=', 'B'] [(['A'], ['C'])] =
      .ok (['A', '=', 'B'], [(['A'], ['C'])], []) ∧
    lookupEnv [(['A'], ['C'])] ['A'] = some ['C'] := by
  have h := C9_defineEnvVar false ['A', '=', 'B'] ['A'] ['B']
    [(['A'], ['C'])] (by rfl)
  refine ⟨?_, by rfl⟩
  rw [h.1]
  rfl

/-! ## Task-group lemmas -/

theorem reportAll_errors (arrivals : List Outcome) :
    ∀ g : TaskGroup, (reportAll g arrivals).errors = g.errors ++ failures arrivals := by
  induction arrivals with
  | nil => intro g; simp [reportAll, failures]
  | cons o arr ih =>
    intro g
    show (reportAll (onChildTerminal g o) arr).errors = _
    rw [ih (onChildTerminal g o)]
    cases o <;> simp [onChildTerminal, failures]

theorem reportAll_completedCount (arrivals : List Outcome) :
    ∀ g : TaskGroup,
      (reportAll g arrivals).completedCount = g.completedCount + arrivals.length := by
  induction arrivals with
  | nil => intro g; simp [reportAll]
  | cons o arr ih =>
    intro g
    show (reportAll (onChildTerminal g o) arr).completedCount = _
    rw [ih (onChildTerminal g o)]
    simp [onChildTerminal]
    omega

theorem reportAll_expected (arrivals : List Outcome) :
    ∀ g : TaskGroup, (reportAll g arrivals).expected = g.expected := by
  induction arrivals with
  | nil => intro g; rfl
  | cons o arr ih =>
    intro g
    show (reportAll (onChildTerminal g o) arr).expected = _
    rw [ih (onChildTerminal g o)]
    cases o <;> rfl

theorem failures_perm {l₁ l₂ : List Outcome} (h : l₁.Perm l₂) :
    (failures l₁).Perm (failures l₂) :=
  h.filterMap _

/-! ## Claim C1 -/

/-- C1: after every child of the group has reported, in any arrival
order (any permutation of the children), the Error Aggregator holds
exactly the errors of the failed children: as a list it is the failures
in arrival order, as a multiset it equals the children's failures —
nothing lost, nothing deduplicated, identical error contents kept
separately — and when at least one child failed, join raises the Error
Group carrying precisely that list, which the parent catches.  The
begin-throws test (two children both throwing "test error") is the
witness. -/
theorem C1_group_errors (children arrivals : List Outcome)
    (hperm : arrivals.Perm children) :
    (reportAll (openGroup children.length) arrivals).errors = failures arrivals ∧
    ((reportAll (openGroup children.length) arrivals).errors).Perm
      (failures children) ∧
    ((reportAll (openGroup children.length) arrivals).errors).length =
      (failures children).length ∧
    joinReady (reportAll (openGroup children.length) arrivals) = true ∧
    (failures children ≠ [] →
      joinResult (reportAll (openGroup children.length) arrivals) =
        .raises (failures arrivals)) := by
  have herr : (reportAll (openGroup children.length) arrivals).errors =
      failures arrivals := by
    rw [reportAll_errors arrivals (openGroup children.length)]
    simp [openGroup]
  have hp : (failures arrivals).Perm (failures children) := failures_perm hperm
  refine ⟨herr, ?_, ?_, ?_, ?_⟩
  · rw [herr]; exact hp
  · rw [herr]; exact hp.length_eq
  · unfold joinReady
    rw [reportAll_completedCount arrivals (openGroup children.length),
      reportAll_expected arrivals (openGroup children.length)]
    simp [openGroup, hperm.length_eq]
  · intro hne
    have hne' : failures arrivals ≠ [] := by
      intro h0
      apply hne
      have := hp.length_eq
      rw [h0] at this
      exact List.length_eq_zero.mp this.symm
    unfold joinResult
    rw [herr]
    rw [if_neg (by simpa [List.isEmpty_iff] using hne')]

/-- C1 witness: the begin-throws scenario — two children that both
throw "test error" — reported in spawn order: join raises a group error
iterating over both identical errors, none lost, none deduplicated. -/
theorem C1_witness :
    (reportAll (openGroup 2)
        [Outcome.failed "test error", Outcome.failed "test error"]).errors =
      ["test error", "test error"] ∧
    joinResult (reportAll (openGroup 2)
        [Outcome.failed "test error", Outcome.failed "test error"]) =
      .raises ["test error", "test error"] := by
  have h := C1_group_errors
    [Outcome.failed "test error", Outcome.failed "test error"]
    [Outcome.failed "test error", Outcome.failed "test error"]
    (List.Perm.refl _)
  exact ⟨h.1.trans (by rfl), (h.2.2.2.2 (by decide)).trans (by rfl)⟩

/-! ## Group small-step lemmas -/

theorem countTerminal_le (cs : List ChildState) :
    countTerminal cs ≤ cs.length :=
  List.length_filter_le _ _

theorem countTerminal_replicate (n : Nat) :
    countTerminal (List.replicate n .runnable) = 0 := by
  induction n with
  | zero => rfl
  | succ n ih =>
    rw [List.replicate_succ]
    show (List.filter terminalChild (ChildState.runnable :: List.replicate n .runnable)).length = 0
    rw [List.filter_cons_of_neg (by decide)]
    exact ih

theorem countTerminal_set (cs : List ChildState) (c : ChildState)
    (hc : terminalChild c = true) :
    ∀ (i : Nat) (hi : i < cs.length), cs.get ⟨i, hi⟩ = .runnable →
      countTerminal (cs.set i c) = countTerminal cs + 1 := by
  induction cs with
  | nil => intro i hi; cases hi
  | cons hd tl ih =>
    intro i hi hr
    cases i with
    | zero =>
      have hhd : hd = .runnable := hr
      subst hhd
      show countTerminal (c :: tl) = countTerminal (ChildState.runnable :: tl) + 1
      unfold countTerminal
      rw [List.filter_cons_of_pos hc, List.filter_cons_of_neg (by decide)]
      rfl
    | succ j =>
      have hj : j < tl.length := Nat.lt_of_succ_lt_succ hi
      have hr' : tl.get ⟨j, hj⟩ = .runnable := hr
      show countTerminal (hd :: tl.set j c) = countTerminal (hd :: tl) + 1
      unfold countTerminal
      cases hhd : terminalChild hd with
      | true =>
        rw [List.filter_cons_of_pos hhd, List.filter_cons_of_pos hhd]
        simp only [List.length_cons]
        rw [show (List.filter terminalChild (tl.set j c)).length =
            countTerminal (tl.set j c) from rfl,
          show (List.filter terminalChild tl).length = countTerminal tl from rfl,
          ih j hj hr']
      | false =>
        rw [List.filter_cons_of_neg (by simp [hhd]),
          List.filter_cons_of_neg (by simp [hhd])]
        exact ih j hj hr'

theorem countTerminal_eq_length_iff (cs : List ChildState) :
    countTerminal cs = cs.length ↔ ∀ c ∈ cs, terminalChild c = true := by
  unfold countTerminal
  induction cs with
  | nil => simp
  | cons hd tl ih =>
    cases hhd : terminalChild hd with
    | true =>
      rw [List.filter_cons_of_pos hhd]
      simp only [List.length_cons, Nat.succ_inj, List.mem_cons]
      constructor
      · intro h c hc
        rcases hc with rfl | hc
        · exact hhd
        · exact (ih.mp h) c hc
      · intro h
        exact ih.mpr fun c hc => h c (Or.inr hc)
    | false =>
      rw [List.filter_cons_of_neg (by simp [hhd])]
      constructor
      · intro h
        have hle := countTerminal_le tl
        unfold countTerminal at hle
        simp only [List.length_cons] at h
        omega
      · intro h
        exact absurd (h hd (List.mem_cons_self hd tl)) (by simp [hhd])

theorem toChild_terminal (o : Outcome) : terminalChild (toChild o) = true := by
  cases o <;> rfl

/-! ## Claim C2 -/

/-- C2: in every reachable state of a group of N children, the
completion counter equals the number of terminal children and never
exceeds N; join is ready exactly when every registered child is
terminal (it never fires below N and cannot miss once all N reported);
and a still-runnable child can always take its terminal step with
either outcome — the step's premises mention only that child, so a
sibling's failure never suppresses its execution or its error. -/
theorem C2_join_after_all_children (n : Nat) (s : GroupSys)
    (hr : ReachSys n s) :
    s.children.length = n ∧
    s.grp.expected = n ∧
    s.grp.completedCount = countTerminal s.children ∧
    s.grp.completedCount ≤ n ∧
    (joinReady s.grp = true ↔ ∀ c ∈ s.children, terminalChild c = true) ∧
    (∀ (i : Nat) (hi : i < s.children.length) (o : Outcome),
      s.children.get ⟨i, hi⟩ = .runnable →
      GStep s { children := s.children.set i (toChild o)
                grp := onChildTerminal s.grp o }) := by
  have henable : ∀ (u : GroupSys) (i : Nat) (hi : i < u.children.length)
      (o : Outcome), u.children.get ⟨i, hi⟩ = .runnable →
      GStep u { children := u.children.set i (toChild o)
                grp := onChildTerminal u.grp o } :=
    fun u i hi o hru => GStep.finish u i o hi hru
  induction hr with
  | init =>
    refine ⟨List.length_replicate n _, rfl, ?_, Nat.zero_le n, ?_, henable _⟩
    · show (0 : Nat) = countTerminal (List.replicate n ChildState.runnable)
      rw [countTerminal_replicate]
    · show ((0 : Nat) == n) = true ↔
        ∀ c ∈ List.replicate n ChildState.runnable, terminalChild c = true
      simp only [beq_iff_eq]
      constructor
      · intro h0 c hc
        rw [← h0] at hc
        simp at hc
      · intro hall
        cases n with
        | zero => rfl
        | succ m =>
          have hmem : ChildState.runnable ∈
              List.replicate (m + 1) ChildState.runnable := by
            simp [List.mem_replicate]
          exact absurd (hall .runnable hmem) (by decide)
  | @step s₁ s₂ hreach hstep ih =>
    obtain ⟨hlen, hexp, hcount, _, _, _⟩ := ih
    cases hstep with
    | finish i o hi hru =>
      have hlen' : (s₁.children.set i (toChild o)).length = n := by
        rw [List.length_set]; exact hlen
      have hcount' : countTerminal (s₁.children.set i (toChild o)) =
          countTerminal s₁.children + 1 :=
        countTerminal_set s₁.children (toChild o) (toChild_terminal o) i hi hru
      have hcc : (onChildTerminal s₁.grp o).completedCount =
          countTerminal (s₁.children.set i (toChild o)) := by
        show s₁.grp.completedCount + 1 = _
        rw [hcount', hcount]
      refine ⟨hlen', hexp, hcc, ?_, ?_, henable _⟩
      · rw [hcc, ← hlen']
        exact countTerminal_le _
      · show ((onChildTerminal s₁.grp o).completedCount ==
            (onChildTerminal s₁.grp o).expected) = true ↔
          ∀ c ∈ s₁.children.set i (toChild o), terminalChild c = true
        have hexp' : (onChildTerminal s₁.grp o).expected = n := hexp
        rw [hcc, hexp']
        simp only [beq_iff_eq]
        rw [← hlen']
        exact countTerminal_eq_length_iff _

/-- C2 witness: the invariant evaluated at the freshly opened group of
two children. -/
theorem C2_witness :
    (initSys 2).grp.completedCount ≤ 2 ∧
    (initSys 2).children.length = 2 ∧
    (joinReady (initSys 2).grp = true ↔
      ∀ c ∈ (initSys 2).children, terminalChild c = true) := by
  have h := C2_join_after_all_children 2 (initSys 2) ReachSys.init
  exact ⟨h.2.2.2.1, h.1, h.2.2.2.2.1⟩

/-! ## Claim C3 -/

/-- C3: a group opened with zero expected children is join-ready
immediately and join returns normally; and for any group in which no
child failed, after all arrivals the Error Aggregator drains empty and
join returns normally. -/
theorem C3_zero_children_and_no_failures :
    (joinReady (openGroup 0) = true ∧ joinResult (openGroup 0) = .normal) ∧
    (∀ (n : Nat) (arrivals : List Outcome), failures arrivals = [] →
      (reportAll (openGroup n) arrivals).errors = [] ∧
      joinResult (reportAll (openGroup n) arrivals) = .normal) := by
  refine ⟨⟨rfl, rfl⟩, ?_⟩
  intro n arrivals hk
  have herr : (reportAll (openGroup n) arrivals).errors = [] := by
    rw [reportAll_errors arrivals (openGroup n)]
    simp [openGroup, hk]
  refine ⟨herr, ?_⟩
  unfold joinResult
  rw [herr]
  rfl

/-- C3 witness: one completed child. -/
theorem C3_witness :
    (reportAll (openGroup 1) [Outcome.completed]).errors = [] ∧
    joinResult (reportAll (openGroup 1) [Outcome.completed]) = .normal :=
  C3_zero_children_and_no_failures.2 1 [Outcome.completed] (by rfl)

/-! ## Synchronization-cell lemmas -/

theorem stateAt_succ (tr : List CEvent) (j : Nat) (hj : j < tr.length) :
    stateAt tr (j + 1) = (cellStep (stateAt tr j) (tr.getD j padEvent)).1 := by
  unfold stateAt
  rw [List.take_succ]
  rw [List.foldl_append]
  have hg : tr[j]? = some (tr.getD j padEvent) := by
    rw [List.getElem?_eq_getElem hj]
    rw [List.getD_eq_getElem tr padEvent hj]
  rw [hg]
  rfl

theorem stateAt_stable (tr : List CEvent) (j k : Nat)
    (hj : tr.length ≤ j) (hk : tr.length ≤ k) :
    stateAt tr j = stateAt tr k := by
  unfold stateAt
  rw [List.take_of_length_le hj, List.take_of_length_le hk]

theorem cellStep_value_some (s : CellState) (e : CEvent) (v : Nat)
    (h : s.value = some v) : ((cellStep s e).1).value = some v := by
  cases e <;> simp [cellStep, h]

theorem cellStep_read_none (s : CellState) (u : Nat) (h : s.value = none) :
    (cellStep s (.read u)).1 = { s with waiting := s.waiting ++ [u] } ∧
    (cellStep s (.read u)).2 = [] := by
  constructor <;> simp [cellStep, h]

theorem cellStep_read_some (s : CellState) (u : Nat) (v : Nat)
    (h : s.value = some v) :
    (cellStep s (.read u)).1 = s ∧ (cellStep s (.read u)).2 = [u] := by
  constructor <;> simp [cellStep, h]

theorem cellStep_write_none (s : CellState) (v : Nat) (h : s.value = none) :
    (cellStep s (.write v)).1 = { value := some v, waiting := [] } ∧
    (cellStep s (.write v)).2 = s.waiting := by
  constructor <;> simp [cellStep, h]

theorem isWrite_false_read (e : CEvent) (h : isWrite e = false) :
    ∃ u, e = .read u := by
  cases e with
  | write v => simp [isWrite] at h
  | read u => exact ⟨u, rfl⟩

theorem isWrite_true_write (e : CEvent) (h : isWrite e = true) :
    ∃ v, e = .write v := by
  cases e with
  | write v => exact ⟨v, rfl⟩
  | read u => simp [isWrite] at h

/-- With no write in the interval, an Empty cell stays Empty and a
suspended task stays suspended. -/
theorem noWrite_stable (tr : List CEvent) (t : Nat) :
    ∀ (k j : Nat), j ≤ k →
    (∀ m, j ≤ m → m < k → isWrite (tr.getD m padEvent) = false) →
    (stateAt tr j).value = none → t ∈ (stateAt tr j).waiting →
    (stateAt tr k).value = none ∧ t ∈ (stateAt tr k).waiting := by
  intro k
  induction k with
  | zero =>
    intro j hj _ hv hw
    obtain rfl : j = 0 := Nat.le_zero.mp hj
    exact ⟨hv, hw⟩
  | succ k ih =>
    intro j hjk hnw hv hw
    by_cases hj : j = k + 1
    · subst hj
      exact ⟨hv, hw⟩
    · have hjk' : j ≤ k := by omega
      have hnw' : ∀ m, j ≤ m → m < k → isWrite (tr.getD m padEvent) = false :=
        fun m h1 h2 => hnw m h1 (by omega)
      obtain ⟨hvk, hwk⟩ := ih j hjk' hnw' hv hw
      by_cases hkl : k < tr.length
      · have hstep := stateAt_succ tr k hkl
        have hnwk : isWrite (tr.getD k padEvent) = false :=
          hnw k hjk' (by omega)
        obtain ⟨u, hu⟩ := isWrite_false_read _ hnwk
        rw [hstep, hu]
        obtain ⟨h1, _⟩ := cellStep_read_none (stateAt tr k) u hvk
        rw [h1]
        exact ⟨hvk, List.mem_append_left _ hwk⟩
      · rw [stateAt_stable tr (k + 1) k (by omega) (by omega)]
        exact ⟨hvk, hwk⟩

/-- A cell that went from Empty to Full saw a write in between. -/
theorem value_some_write (tr : List CEvent) :
    ∀ (k j : Nat) (v : Nat), j ≤ k →
    (stateAt tr j).value = none → (stateAt tr k).value = some v →
    ∃ m, j ≤ m ∧ m < k ∧ m < tr.length ∧
      isWrite (tr.getD m padEvent) = true := by
  intro k
  induction k with
  | zero =>
    intro j v hj hn hs
    obtain rfl : j = 0 := Nat.le_zero.mp hj
    rw [hn] at hs
    cases hs
  | succ k ih =>
    intro j v hjk hn hs
    by_cases hj : j = k + 1
    · subst hj
      rw [hn] at hs
      cases hs
    · have hjk' : j ≤ k := by omega
      by_cases hkl : k < tr.length
      · cases hvk : (stateAt tr k).value with
        | some w =>
          obtain ⟨m, h1, h2, h3, h4⟩ := ih j w hjk' hn hvk
          exact ⟨m, h1, by omega, h3, h4⟩
        | none =>
          cases hE : isWrite (tr.getD k padEvent) with
          | true => exact ⟨k, hjk', by omega, hkl, hE⟩
          | false =>
            obtain ⟨u, hu⟩ := isWrite_false_read _ hE
            have hstep := stateAt_succ tr k hkl
            rw [hstep, hu] at hs
            obtain ⟨h1, _⟩ := cellStep_read_none (stateAt tr k) u hvk
            rw [h1] at hs
            rw [hvk] at hs
            cases hs
      · rw [stateAt_stable tr (k + 1) k (by omega) (by omega)] at hs
        cases hvk : (stateAt tr k).value with
        | some w =>
          obtain ⟨m, h1, h2, h3, h4⟩ := ih j w hjk' hn hvk
          exact ⟨m, h1, by omega, h3, h4⟩
        | none =>
          rw [hvk] at hs
          cases hs

/-- The state just after a task suspends: cell still Empty, the task
in the waiting list. -/
theorem suspendsAt_next (tr : List CEvent) (i t : Nat)
    (hs : suspendsAt tr i t) :
    (stateAt tr (i + 1)).value = none ∧ t ∈ (stateAt tr (i + 1)).waiting := by
  obtain ⟨hil, hev, hvn⟩ := hs
  have hstep := stateAt_succ tr i hil
  rw [hstep, hev]
  obtain ⟨h1, _⟩ := cellStep_read_none (stateAt tr i) t hvn
  rw [h1]
  exact ⟨hvn, List.mem_append_right _ (List.mem_singleton_self t)⟩

/-! ## Claim C4 -/

/-- C4: a task suspended on an Empty Synchronization Cell proceeds
later if and only if a write to the cell occurs after the suspension —
the first such write resumes it, and without a write it waits forever;
and a write that happened before a read is not missed: a read executed
on a Full cell is satisfied immediately at its own step. -/
theorem C4_sync_cell (tr : List CEvent) (i t : Nat) :
    (suspendsAt tr i t →
      ((∃ j, i < j ∧ proceedsAt tr j t) ↔
        (∃ j, i < j ∧ j < tr.length ∧ isWrite (tr.getD j padEvent) = true))) ∧
    (∀ v : Nat, i < tr.length → tr.getD i padEvent = .read t →
      (stateAt tr i).value = some v → proceedsAt tr i t) := by
  constructor
  · intro hs
    constructor
    · rintro ⟨j, hij, hjl, hmem⟩
      cases hev : tr.getD j padEvent with
      | write v => exact ⟨j, hij, hjl, by rw [hev]; rfl⟩
      | read u =>
        rw [hev] at hmem
        cases hvj : (stateAt tr j).value with
        | none =>
          obtain ⟨_, h2⟩ := cellStep_read_none (stateAt tr j) u hvj
          rw [h2] at hmem
          cases hmem
        | some w =>
          obtain ⟨hv1, hw1⟩ := suspendsAt_next tr i t hs
          obtain ⟨m, hm1, hm2, hm3, hm4⟩ :=
            value_some_write tr j (i + 1) w (by omega) hv1 hvj
          exact ⟨m, by omega, hm3, hm4⟩
    · rintro ⟨j, hij, hjl, hw⟩
      have hex : ∃ m, i < m ∧ m < tr.length ∧
          isWrite (tr.getD m padEvent) = true := ⟨j, hij, hjl, hw⟩
      set k := Nat.find hex with hkdef
      obtain ⟨hk1, hk2, hk3⟩ := Nat.find_spec hex
      have hmin : ∀ m, m < k → ¬(i < m ∧ m < tr.length ∧
          isWrite (tr.getD m padEvent) = true) := fun m hm => Nat.find_min hex hm
      obtain ⟨hv1, hw1⟩ := suspendsAt_next tr i t hs
      have hnw : ∀ m, i + 1 ≤ m → m < k →
          isWrite (tr.getD m padEvent) = false := by
        intro m h1 h2
        cases hwm : isWrite (tr.getD m padEvent) with
        | false => rfl
        | true =>
          exact absurd ⟨by omega, by omega, hwm⟩ (hmin m h2)
      obtain ⟨hvk, hwk⟩ :=
        noWrite_stable tr t k (i + 1) (by omega) hnw hv1 hw1
      obtain ⟨v, hv⟩ := isWrite_true_write _ hk3
      refine ⟨k, by omega, hk2, ?_⟩
      rw [hv]
      obtain ⟨_, h2⟩ := cellStep_write_none (stateAt tr k) v hvk
      rw [h2]
      exact hwk
  · intro v hil hev hvs
    refine ⟨hil, ?_⟩
    rw [hev]
    obtain ⟨_, h2⟩ := cellStep_read_some (stateAt tr i) t v hvs
    rw [h2]
    exact List.mem_singleton_self t

/-- C4 witness: the iff's write-side applied to the trace
read-then-write, and the no-missed-write part applied to
write-then-read. -/
theorem C4_witness :
    (∃ j, 0 < j ∧ proceedsAt [CEvent.read 0, CEvent.write 5] j 0) ∧
    proceedsAt [CEvent.write 5, CEvent.read 0] 1 0 := by
  constructor
  · exact ((C4_sync_cell [CEvent.read 0, CEvent.write 5] 0 0).1
      ⟨by decide, by rfl, by rfl⟩).mpr ⟨1, by decide, by decide, by rfl⟩
  · exact (C4_sync_cell [CEvent.write 5, CEvent.read 0] 1 0).2 5
      (by decide) (by rfl) (by rfl)

end Chapel
